import Mathlib

/-!
Verification development for the ERP-Core-System transactional inventory core.

The definitions below are a shallow embedding of the TypeScript services:
the Phase 7B stock engine (increaseStock, decreaseStock, adjustStock,
reserveStock, returnStock, addStock, removeStock), the sale state machine
(approveSale, cancelSale), the legacy order state machine (approveOrder,
cancelOrder) together with its product-based stock helpers, the invoice
service (createInvoice), the outbox handlers (handleOrderApproved), the
outbox worker (processNextEvent) and the sequential number generator
(generateSequentialNumber).

Database tables become lists of rows held in a state record; a Prisma
interactive transaction becomes a function of type
State -> Except ServiceError (State × Result): a thrown business error is
an Except.error, and withTransaction rollback semantics mean the pre-state
survives unchanged on error (applyTx).  Row ids generated by the database
are modelled deterministically from list lengths.  The ambient clock
(Date.now, getFullYear) is modelled as explicit state fields.  Each write
primitive also appends a WriteAction to an ordered log so that claims about
the order of writes inside one transaction can be stated.
-/

/-- Business error hierarchy from src/lib/errors.ts.  Constructors carry the
fields the corresponding TypeScript error classes carry.  recordNotFound
models the Prisma P2025 error thrown by update on a missing row. -/
inductive ServiceError where
  | notFound (message : String) (id : Option String)
  | organizationMismatch (entity id organizationId : String)
  | insufficientStock (sku : String) (available requested : Int)
  | validationError (message : String)
  | invalidOrderStatus (currentStatus targetStatus : String)
  | duplicateInvoice (orderNumber : String)
  | recordNotFound
deriving DecidableEq, Repr

/-- StockMovementType enum from the Prisma schema. -/
inductive StockMovementType where
  | IN
  | OUT
  | ADJUSTMENT
deriving DecidableEq, Repr

/-- StockReferenceType enum from the Prisma schema. -/
inductive StockReferenceType where
  | SALE
  | PURCHASE
  | MANUAL
deriving DecidableEq, Repr

/-- SaleStatus enum (shared shape with OrderStatus) from the Prisma schema. -/
inductive SaleStatus where
  | DRAFT
  | APPROVED
  | CANCELLED
deriving DecidableEq, Repr

/-- Render a status the way the raw SQL row carries it (a string). -/
def saleStatusStr : SaleStatus → String
  | .DRAFT => "DRAFT"
  | .APPROVED => "APPROVED"
  | .CANCELLED => "CANCELLED"

/-- Row of the products table (the columns the stock engine reads). -/
structure ProductRow where
  id : String
  sku : String
  organizationId : String
deriving DecidableEq, Repr

/-- Row of the warehouses table (the columns the stock engine reads). -/
structure WarehouseRow where
  id : String
  organizationId : String
deriving DecidableEq, Repr

/-- Row of the stocks table: denormalized balance for a product × warehouse
pair, unique on that pair. -/
structure StockRow where
  id : String
  organizationId : String
  productId : String
  warehouseId : String
  quantity : Int
  minQuantity : Int
deriving DecidableEq, Repr

/-- Row of the stock_movements table (append-only audit record). -/
structure StockMovementRow where
  id : String
  organizationId : String
  productId : String
  warehouseId : String
  type : StockMovementType
  referenceType : StockReferenceType
  quantity : Int
  reference : Option String
  note : Option String
  createdById : String
deriving DecidableEq, Repr

/-- Outbox event types published anywhere in the sources. -/
inductive OutboxEventType where
  | ORDER_APPROVED
  | SALE_APPROVED
  | SALE_CANCELLED
  | LOW_STOCK
  | USER_CREATED
deriving DecidableEq, Repr

/-- JSON payloads of the outbox events, one constructor per payload shape
appearing in the sources. -/
inductive OutboxPayload where
  | lowStock (productId warehouseId sku : String) (currentStock minStock : Int)
  | saleApproved (saleId saleNumber organizationId userId : String)
  | orderApproved (orderId orderNumber userId : String)
  | userCreated (userId email name : String)
deriving DecidableEq, Repr

/-- Status column of the outbox_events table. -/
inductive OutboxStatus where
  | PENDING
  | PROCESSING
  | DONE
  | FAILED
deriving DecidableEq, Repr

/-- Row of the outbox_events table.  processedAt is modelled as a flag
recording whether the timestamp column is set. -/
structure OutboxRow where
  id : String
  type : OutboxEventType
  payload : OutboxPayload
  status : OutboxStatus
  retryCount : Nat
  maxRetries : Nat
  error : Option String
  idempotencyKey : Option String
  processedAt : Bool
deriving DecidableEq, Repr

/-- Row of the sales table (the columns the sale service reads and writes).
approvedAt and cancelledAt are modelled as set/unset flags. -/
structure SaleRow where
  id : String
  organizationId : String
  warehouseId : String
  saleNumber : String
  status : SaleStatus
  approvedAt : Bool
  cancelledAt : Bool
deriving DecidableEq, Repr

/-- Row of the sale_items table. -/
structure SaleItemRow where
  id : String
  saleId : String
  productId : String
  quantity : Int
deriving DecidableEq, Repr

/-- One database write performed inside a transaction, recorded in order so
that claims about write ordering can be stated. -/
inductive WriteAction where
  | movementInsert (productId warehouseId : String)
  | stockWrite (productId warehouseId : String)
  | outboxInsert
  | saleWrite (id : String)
deriving DecidableEq, Repr

/-- State of the Phase 7B database: one list per table, plus the write log
and the ambient clock in milliseconds (Date.now). -/
structure DB where
  products : List ProductRow
  warehouses : List WarehouseRow
  stocks : List StockRow
  movements : List StockMovementRow
  sales : List SaleRow
  saleItems : List SaleItemRow
  outbox : List OutboxRow
  log : List WriteAction
  now : Nat
deriving DecidableEq, Repr

/-- Common parameters every stock mutation needs (StockMutationParams). -/
structure StockMutationParams where
  organizationId : String
  productId : String
  warehouseId : String
  quantity : Int
  userId : String
  referenceType : StockReferenceType
  reference : Option String
  note : Option String
deriving DecidableEq, Repr

/-- Return value of stock mutations (StockMutationResult). -/
structure StockMutationResult where
  movementId : String
  previousQuantity : Int
  newQuantity : Int
  productId : String
  warehouseId : String
deriving DecidableEq, Repr

/-- withTransaction rollback semantics: the post-transaction database is the
transaction body result on success, and the unchanged input on any thrown
error. -/
def applyTx {α : Type} (r : Except ServiceError (DB × α)) (db : DB) : DB :=
  match r with
  | .ok (db', _) => db'
  | .error _ => db

/-- validateProductOwnership: the product must exist and belong to the given
organization; returns its sku. -/
def validateProductOwnership (db : DB) (productId organizationId : String) :
    Except ServiceError String :=
  match db.products.find? (fun p => p.id == productId) with
  | none => .error (.notFound "Urun bulunamadi" (some productId))
  | some p =>
    if p.organizationId ≠ organizationId then
      .error (.organizationMismatch "Product" productId organizationId)
    else
      .ok p.sku

/-- validateWarehouseOwnership: the warehouse must exist and belong to the
given organization. -/
def validateWarehouseOwnership (db : DB) (warehouseId organizationId : String) :
    Except ServiceError Unit :=
  match db.warehouses.find? (fun w => w.id == warehouseId) with
  | none => .error (.notFound "Depo bulunamadi" (some warehouseId))
  | some w =>
    if w.organizationId ≠ organizationId then
      .error (.organizationMismatch "Warehouse" warehouseId organizationId)
    else
      .ok ()

/-- Key predicate of the stocks unique constraint on (productId, warehouseId). -/
def stockKey (productId warehouseId : String) (s : StockRow) : Bool :=
  s.productId == productId && s.warehouseId == warehouseId

/-- lockStockForUpdate: SELECT ... FOR UPDATE on the stocks row of a
product × warehouse pair; in the sequential model the lock itself is the
identity and only the read remains.  Returns none if no row exists. -/
def lockStockForUpdate (db : DB) (productId warehouseId : String) : Option StockRow :=
  db.stocks.find? (stockKey productId warehouseId)

/-- Replace the first stock row matching the pair, applying a quantity-only
update; none when no row matches (Prisma update would throw P2025). -/
def replaceFirstStock (l : List StockRow) (productId warehouseId : String)
    (f : Int → Int) : Option (List StockRow) :=
  match l with
  | [] => none
  | s :: rest =>
    if stockKey productId warehouseId s then
      some ({ s with quantity := f s.quantity } :: rest)
    else
      (replaceFirstStock rest productId warehouseId f).map (fun l' => s :: l')

/-- tx.stock.update on the unique (productId, warehouseId) key with a
quantity modification; errors like Prisma when the row is missing. -/
def stockUpdateQuantity (db : DB) (productId warehouseId : String) (f : Int → Int) :
    Except ServiceError DB :=
  match replaceFirstStock db.stocks productId warehouseId f with
  | none => .error .recordNotFound
  | some stocks' =>
    .ok { db with stocks := stocks',
                  log := db.log ++ [.stockWrite productId warehouseId] }

/-- tx.stock.create: append a fresh stock row.  Row ids are derived from the
list length, standing in for database-generated ids. -/
def stockCreate (db : DB) (organizationId productId warehouseId : String)
    (quantity minQuantity : Int) : DB :=
  { db with
    stocks := db.stocks ++
      [{ id := "stk" ++ toString db.stocks.length,
         organizationId := organizationId, productId := productId,
         warehouseId := warehouseId, quantity := quantity,
         minQuantity := minQuantity }],
    log := db.log ++ [.stockWrite productId warehouseId] }

/-- tx.stockMovement.create: append an audit row and return its id. -/
def movementCreate (db : DB) (organizationId productId warehouseId : String)
    (type : StockMovementType) (referenceType : StockReferenceType)
    (quantity : Int) (reference note : Option String) (createdById : String) :
    DB × String :=
  let mid := "mov" ++ toString db.movements.length
  ({ db with
     movements := db.movements ++
       [{ id := mid, organizationId := organizationId, productId := productId,
          warehouseId := warehouseId, type := type,
          referenceType := referenceType, quantity := quantity,
          reference := reference, note := note, createdById := createdById }],
     log := db.log ++ [.movementInsert productId warehouseId] }, mid)

/-- publishEvent from src/lib/outbox.ts: insert one PENDING outbox row inside
the current transaction.  maxRetries takes the schema default 3. -/
def publishEvent (db : DB) (type : OutboxEventType) (payload : OutboxPayload)
    (idempotencyKey : Option String) : DB :=
  { db with
    outbox := db.outbox ++
      [{ id := "evt" ++ toString db.outbox.length, type := type,
         payload := payload, status := .PENDING, retryCount := 0,
         maxRetries := 3, error := none, idempotencyKey := idempotencyKey,
         processedAt := false }],
    log := db.log ++ [.outboxInsert] }

/-- emitLowStockEventIfNeeded: publish a LOW_STOCK event when the new
quantity is at or below a positive minimum, with a minute-bucketed
idempotency key built from Date.now. -/
def emitLowStockEventIfNeeded (db : DB) (productId warehouseId sku : String)
    (newQuantity minQuantity : Int) : DB :=
  if minQuantity > 0 && newQuantity ≤ minQuantity then
    publishEvent db .LOW_STOCK
      (.lowStock productId warehouseId sku newQuantity minQuantity)
      (some ("low_stock:" ++ productId ++ ":" ++ warehouseId ++ ":" ++
             toString (db.now / 60000)))
  else
    db

/-- increaseStock (Phase 7B): validate ownership, lock, insert an IN
movement first, then upsert the balance. -/
def increaseStock (db : DB) (par : StockMutationParams) :
    Except ServiceError (DB × StockMutationResult) :=
  if par.quantity ≤ 0 then
    .error (.validationError "Miktar pozitif olmalidir")
  else do
    let _ ← validateProductOwnership db par.productId par.organizationId
    let _ ← validateWarehouseOwnership db par.warehouseId par.organizationId
    let existingStock := lockStockForUpdate db par.productId par.warehouseId
    let previousQuantity := match existingStock with
      | some s => s.quantity
      | none => 0
    let newQuantity := previousQuantity + par.quantity
    let (db, movementId) := movementCreate db par.organizationId par.productId
      par.warehouseId .IN par.referenceType par.quantity par.reference par.note
      par.userId
    let upsert : Except ServiceError DB :=
      match existingStock with
      | some _ =>
        stockUpdateQuantity db par.productId par.warehouseId
          (fun q => q + par.quantity)
      | none =>
        .ok (stockCreate db par.organizationId par.productId
          par.warehouseId par.quantity 0)
    let db ← upsert
    .ok (db, { movementId := movementId, previousQuantity := previousQuantity,
               newQuantity := newQuantity, productId := par.productId,
               warehouseId := par.warehouseId })

/-- decreaseStock (Phase 7B): validate ownership, lock (row must exist),
check sufficiency, insert an OUT movement first, then decrement the
balance, then run the low-stock check. -/
def decreaseStock (db : DB) (par : StockMutationParams) :
    Except ServiceError (DB × StockMutationResult) :=
  if par.quantity ≤ 0 then
    .error (.validationError "Miktar pozitif olmalidir")
  else do
    let sku ← validateProductOwnership db par.productId par.organizationId
    let _ ← validateWarehouseOwnership db par.warehouseId par.organizationId
    match lockStockForUpdate db par.productId par.warehouseId with
    | none => .error (.notFound "Stok kaydi bulunamadi" none)
    | some existingStock =>
      if existingStock.quantity < par.quantity then
        .error (.insufficientStock sku existingStock.quantity par.quantity)
      else do
        let previousQuantity := existingStock.quantity
        let newQuantity := previousQuantity - par.quantity
        let (db, movementId) := movementCreate db par.organizationId
          par.productId par.warehouseId .OUT par.referenceType par.quantity
          par.reference par.note par.userId
        let db ← stockUpdateQuantity db par.productId par.warehouseId
          (fun q => q - par.quantity)
        let db := emitLowStockEventIfNeeded db par.productId par.warehouseId
          sku newQuantity existingStock.minQuantity
        .ok (db, { movementId := movementId,
                   previousQuantity := previousQuantity,
                   newQuantity := newQuantity, productId := par.productId,
                   warehouseId := par.warehouseId })

/-- Parameters of adjustStock (the absolute-target variant). -/
structure AdjustStockParams where
  organizationId : String
  productId : String
  warehouseId : String
  targetQuantity : Int
  userId : String
  reference : Option String
  note : Option String
deriving DecidableEq, Repr

/-- adjustStock (Phase 7B): set the balance to an absolute non-negative
target; a zero delta is a no-op writing nothing; otherwise a single
ADJUSTMENT movement records the absolute delta, the balance is set to the
target, and the low-stock check runs. -/
def adjustStock (db : DB) (par : AdjustStockParams) :
    Except ServiceError (DB × StockMutationResult) :=
  if par.targetQuantity < 0 then
    .error (.validationError "Hedef miktar negatif olamaz")
  else do
    let sku ← validateProductOwnership db par.productId par.organizationId
    let _ ← validateWarehouseOwnership db par.warehouseId par.organizationId
    match lockStockForUpdate db par.productId par.warehouseId with
    | none => .error (.notFound "Stok kaydi bulunamadi" none)
    | some existingStock =>
      let previousQuantity := existingStock.quantity
      let delta := par.targetQuantity - previousQuantity
      if delta = 0 then
        .ok (db, { movementId := "", previousQuantity := previousQuantity,
                   newQuantity := previousQuantity,
                   productId := par.productId,
                   warehouseId := par.warehouseId })
      else do
        let (db, movementId) := movementCreate db par.organizationId
          par.productId par.warehouseId .ADJUSTMENT .MANUAL
          |delta| par.reference (some (par.note.getD "Sayim duzeltmesi"))
          par.userId
        let db ← stockUpdateQuantity db par.productId par.warehouseId
          (fun _ => par.targetQuantity)
        let db := emitLowStockEventIfNeeded db par.productId par.warehouseId
          sku par.targetQuantity existingStock.minQuantity
        .ok (db, { movementId := movementId,
                   previousQuantity := previousQuantity,
                   newQuantity := par.targetQuantity,
                   productId := par.productId,
                   warehouseId := par.warehouseId })

/-- One item of a multi-item reserve or return call. -/
structure StockItem where
  productId : String
  quantity : Int
deriving DecidableEq, Repr

/-- Body of the reserveStock loop for a single item: validate the product,
lock its stock row, check sufficiency, write the OUT movement, decrement
the balance. -/
def reserveOne (db : DB) (organizationId warehouseId : String)
    (item : StockItem) (userId referenceNumber : String) :
    Except ServiceError DB := do
  let sku ← validateProductOwnership db item.productId organizationId
  match lockStockForUpdate db item.productId warehouseId with
  | none => .error (.notFound "Stok kaydi bulunamadi" none)
  | some stock =>
    if stock.quantity < item.quantity then
      .error (.insufficientStock sku stock.quantity item.quantity)
    else do
      let (db, _) := movementCreate db organizationId item.productId
        warehouseId .OUT .SALE item.quantity (some referenceNumber) none userId
      stockUpdateQuantity db item.productId warehouseId
        (fun q => q - item.quantity)

/-- The reserveStock item loop, in caller-supplied order, aborting on the
first failing item. -/
def reserveItems (db : DB) (organizationId warehouseId : String)
    (items : List StockItem) (userId referenceNumber : String) :
    Except ServiceError DB :=
  match items with
  | [] => .ok db
  | item :: rest => do
    let db ← reserveOne db organizationId warehouseId item userId
      referenceNumber
    reserveItems db organizationId warehouseId rest userId referenceNumber

/-- reserveStock (Phase 7B): transaction-composable multi-item decrement
used by sale approval; validates the warehouse once, then each item. -/
def reserveStock (db : DB) (organizationId warehouseId : String)
    (items : List StockItem) (userId referenceNumber : String) :
    Except ServiceError DB := do
  let _ ← validateWarehouseOwnership db warehouseId organizationId
  reserveItems db organizationId warehouseId items userId referenceNumber

/-- Body of the returnStock loop for a single item: unconditionally write
the IN movement, then increment the balance. -/
def returnOne (db : DB) (organizationId warehouseId : String)
    (item : StockItem) (userId referenceNumber : String) :
    Except ServiceError DB :=
  let (db, _) := movementCreate db organizationId item.productId warehouseId
    .IN .SALE item.quantity (some referenceNumber) (some "Iptal - stok iade")
    userId
  stockUpdateQuantity db item.productId warehouseId (fun q => q + item.quantity)

/-- returnStock (Phase 7B): transaction-composable multi-item increment used
on cancellation; performs no ownership and no sufficiency validation. -/
def returnStock (db : DB) (organizationId warehouseId : String)
    (items : List StockItem) (userId referenceNumber : String) :
    Except ServiceError DB :=
  match items with
  | [] => .ok db
  | item :: rest => do
    let db ← returnOne db organizationId warehouseId item userId
      referenceNumber
    returnStock db organizationId warehouseId rest userId referenceNumber

/-- addStock (Phase 7A entry point in the same file): lock, then update or
create the balance FIRST, and only then write the IN movement. -/
def addStock (db : DB) (organizationId productId warehouseId : String)
    (quantity : Int) (userId : String) (note : Option String) :
    Except ServiceError (DB × Unit) := do
  let stock := lockStockForUpdate db productId warehouseId
  let upsert : Except ServiceError DB :=
    match stock with
    | some _ => stockUpdateQuantity db productId warehouseId
        (fun q => q + quantity)
    | none => .ok (stockCreate db organizationId productId warehouseId
        quantity 0)
  let db ← upsert
  let (db, _) := movementCreate db organizationId productId warehouseId .IN
    .MANUAL quantity none note userId
  .ok (db, ())

/-- removeStock (Phase 7A entry point): lock (row must exist), check
sufficiency, decrement the balance FIRST, then write the OUT movement, then
run the low-stock check inline. -/
def removeStock (db : DB) (organizationId productId warehouseId : String)
    (quantity : Int) (userId : String) (note : Option String) :
    Except ServiceError (DB × Unit) := do
  match lockStockForUpdate db productId warehouseId with
  | none => .error (.notFound "Bu urun icin stok kaydi bulunamadi" none)
  | some stock =>
    if stock.quantity < quantity then
      let sku := match db.products.find? (fun p => p.id == productId) with
        | some p => p.sku
        | none => productId
      .error (.insufficientStock sku stock.quantity quantity)
    else do
      let db ← stockUpdateQuantity db productId warehouseId
        (fun q => q - quantity)
      let (db, _) := movementCreate db organizationId productId warehouseId
        .OUT .MANUAL quantity none note userId
      let newQty := stock.quantity - quantity
      let db :=
        if newQty ≤ stock.minQuantity && stock.minQuantity > 0 then
          let sku := match db.products.find? (fun p => p.id == productId) with
            | some p => p.sku
            | none => productId
          publishEvent db .LOW_STOCK
            (.lowStock productId warehouseId sku newQty stock.minQuantity)
            (some ("low_stock:" ++ productId ++ ":" ++ warehouseId ++ ":" ++
                   toString (db.now / 60000)))
        else db
      .ok (db, ())

/-- lockSaleForUpdate: SELECT ... FOR UPDATE on one sales row. -/
def lockSaleForUpdate (db : DB) (saleId : String) : Option SaleRow :=
  db.sales.find? (fun s => s.id == saleId)

/-- Replace the first sale row with the given id (Prisma update on the
primary key); identity when absent, which never happens after a successful
lock. -/
def replaceFirstSale (l : List SaleRow) (saleId : String)
    (f : SaleRow → SaleRow) : List SaleRow :=
  match l with
  | [] => []
  | s :: rest =>
    if s.id == saleId then f s :: rest
    else s :: replaceFirstSale rest saleId f

/-- tx.sale.update by id, also recording the write in the log. -/
def saleUpdate (db : DB) (saleId : String) (f : SaleRow → SaleRow) : DB :=
  { db with sales := replaceFirstSale db.sales saleId f,
            log := db.log ++ [.saleWrite saleId] }

/-- approveSale: lock the sale, verify tenant, verify DRAFT status, reserve
the stock of every item, flip the status to APPROVED, publish the
SALE_APPROVED event. -/
def approveSale (db : DB) (saleId userId organizationId : String) :
    Except ServiceError (DB × SaleRow) := do
  match lockSaleForUpdate db saleId with
  | none => .error (.notFound "Satis bulunamadi" none)
  | some sale =>
    if sale.organizationId ≠ organizationId then
      .error (.organizationMismatch "Sale" saleId organizationId)
    else if sale.status ≠ .DRAFT then
      .error (.invalidOrderStatus (saleStatusStr sale.status) "APPROVED")
    else do
      let items := db.saleItems.filter (fun i => i.saleId == saleId)
      let db ← reserveStock db sale.organizationId sale.warehouseId
        (items.map (fun i => { productId := i.productId,
                               quantity := i.quantity }))
        userId sale.saleNumber
      let db := saleUpdate db saleId
        (fun s => { s with status := .APPROVED, approvedAt := true })
      let db := publishEvent db .SALE_APPROVED
        (.saleApproved saleId sale.saleNumber sale.organizationId userId)
        (some ("sale:approve:" ++ saleId))
      match lockSaleForUpdate db saleId with
      | some updated => .ok (db, updated)
      | none => .error .recordNotFound

/-- cancelSale: lock the sale, verify tenant, verify APPROVED status, return
the stock of every item, flip the status to CANCELLED. -/
def cancelSale (db : DB) (saleId userId organizationId : String) :
    Except ServiceError (DB × SaleRow) := do
  match lockSaleForUpdate db saleId with
  | none => .error (.notFound "Satis bulunamadi" none)
  | some sale =>
    if sale.organizationId ≠ organizationId then
      .error (.organizationMismatch "Sale" saleId organizationId)
    else if sale.status ≠ .APPROVED then
      .error (.invalidOrderStatus (saleStatusStr sale.status) "CANCELLED")
    else do
      let items := db.saleItems.filter (fun i => i.saleId == saleId)
      let db ← returnStock db sale.organizationId sale.warehouseId
        (items.map (fun i => { productId := i.productId,
                               quantity := i.quantity }))
        userId sale.saleNumber
      let db := saleUpdate db saleId
        (fun s => { s with status := .CANCELLED, cancelledAt := true })
      match lockSaleForUpdate db saleId with
      | some updated => .ok (db, updated)
      | none => .error .recordNotFound

/-- Prefix test on character lists. -/
def listPrefixOf : List Char → List Char → Bool
  | [], _ => true
  | _ :: _, [] => false
  | a :: as, b :: bs => a == b && listPrefixOf as bs

/-- The SQL pattern value LIKE pattern-percent, that is a prefix test;
implemented over the character lists so that it is executable. -/
def strStartsWith (s pre : String) : Bool :=
  listPrefixOf pre.data s.data

/-- Strict byte-lexicographic order on character lists, matching the text
ordering ORDER BY ... DESC sorts by. -/
def charListLt : List Char → List Char → Bool
  | _, [] => false
  | [], _ :: _ => true
  | a :: as, b :: bs => a.toNat < b.toNat || (a == b && charListLt as bs)

/-- Strict lexicographic order on strings. -/
def strLt (a b : String) : Bool :=
  charListLt a.data b.data

/-- Reflexive lexicographic order on strings: b is not strictly below a. -/
def strLe (a b : String) : Prop :=
  strLt b a = false

instance (a b : String) : Decidable (strLe a b) :=
  inferInstanceAs (Decidable (strLt b a = false))

/-- Split a character list at every occurrence of the separator. -/
def splitOnChar (sep : Char) : List Char → List (List Char)
  | [] => [[]]
  | c :: rest =>
    match splitOnChar sep rest with
    | [] => [[]]
    | h :: t => if c == sep then [] :: h :: t else (c :: h) :: t

/-- The trailing dash-separated part of a value, as in
value.split("-") followed by taking the last element. -/
def lastDashPart (s : String) : String :=
  String.mk ((splitOnChar '-' s.data).getLastD [])

/-- Base-10 digit-run value of a character list. -/
def digitsToNat (cs : List Char) : Nat :=
  cs.foldl (fun a c => a * 10 + (c.toNat - 48)) 0

/-- JavaScript parseInt in base 10 on the strings this system produces:
take the longest leading digit run; none models NaN. -/
def jsParseInt (s : String) : Option Nat :=
  let digits := s.data.takeWhile (fun c => 47 < c.toNat && c.toNat < 58)
  if digits.isEmpty then none else some (digitsToNat digits)

/-- Left-pad a rendered number with zeros to width 5 (padStart(5, "0")). -/
def padStart5 (s : String) : String :=
  (List.replicate (5 - s.length) '0').asString ++ s

/-- Greatest string of a list (ORDER BY value DESC LIMIT 1); none on the
empty list. -/
def maxString? (l : List String) : Option String :=
  l.foldl (fun acc v =>
    match acc with
    | none => some v
    | some m => some (if strLt m v then v else m)) none

/-- generateSequentialNumber from src/lib/transaction.ts, shallowly embedded
over the list of existing column values of the chosen table and the current
year: filter the values matching the year-scoped LIKE pattern, read the
greatest, parse its trailing numeric suffix, increment, zero-pad to five
digits.  The none parse result stands for the JavaScript NaN path, where
String(NaN).padStart(5, "0") renders as 00NaN. -/
def generateSequentialNumber (existing : List String) (pre : String)
    (year : Nat) : String :=
  let pat := pre ++ "-" ++ toString year ++ "-"
  let matching := existing.filter (fun v => strStartsWith v pat)
  let lastNumber := maxString? matching
  let nextSeq : Option Nat :=
    match lastNumber with
    | none => some 1
    | some v => (jsParseInt (lastDashPart v)).map (fun n => n + 1)
  let seqStr :=
    match nextSeq with
    | some n => padStart5 (toString n)
    | none => padStart5 "NaN"
  pre ++ "-" ++ toString year ++ "-" ++ seqStr

/-- OrderStatus enum from the Prisma schema. -/
inductive OrderStatus where
  | DRAFT
  | APPROVED
  | CANCELLED
deriving DecidableEq, Repr

/-- Render an order status as the raw SQL row carries it. -/
def orderStatusStr : OrderStatus → String
  | .DRAFT => "DRAFT"
  | .APPROVED => "APPROVED"
  | .CANCELLED => "CANCELLED"

/-- Row of the orders table.  The table has no organization column: the
legacy order service predates multi-tenancy. -/
structure OrderRow where
  id : String
  orderNumber : String
  status : OrderStatus
  totalAmount : Int
  createdById : String
  approvedAt : Bool
  cancelledAt : Bool
deriving DecidableEq, Repr

/-- Row of the order_items table. -/
structure OrderItemRow where
  id : String
  orderId : String
  productId : String
  quantity : Int
deriving DecidableEq, Repr

/-- Product row as the legacy product-based stock helpers read it: a
denormalized currentStock lives on the product itself. -/
structure LegacyProductRow where
  id : String
  sku : String
  organizationId : String
  currentStock : Int
  minStock : Int
deriving DecidableEq, Repr

/-- MovementType enum of the legacy product-based stock schema. -/
inductive LegacyMovementType where
  | IN
  | OUT
  | ORDER_OUT
  | CANCEL_IN
deriving DecidableEq, Repr

/-- Movement row of the legacy product-based stock schema. -/
structure LegacyMovementRow where
  id : String
  productId : String
  type : LegacyMovementType
  quantity : Int
  reference : Option String
  note : Option String
  createdById : String
deriving DecidableEq, Repr

/-- Row of the invoices table. -/
structure InvoiceRow where
  id : String
  invoiceNumber : String
  orderId : String
  totalAmount : Int
  createdById : String
deriving DecidableEq, Repr

/-- State of the legacy order-world database: orders, items, product-based
stock, invoices and the outbox, with the current year for number
generation. -/
structure LegacyDB where
  orders : List OrderRow
  orderItems : List OrderItemRow
  products : List LegacyProductRow
  movements : List LegacyMovementRow
  invoices : List InvoiceRow
  outbox : List OutboxRow
  year : Nat
deriving DecidableEq, Repr

/-- withTransaction rollback semantics for the legacy world. -/
def applyTxL {α : Type} (r : Except ServiceError (LegacyDB × α))
    (db : LegacyDB) : LegacyDB :=
  match r with
  | .ok (db', _) => db'
  | .error _ => db

/-- lockOrderForUpdate: SELECT ... FOR UPDATE on one orders row. -/
def lockOrderForUpdate (db : LegacyDB) (orderId : String) : Option OrderRow :=
  db.orders.find? (fun o => o.id == orderId)

/-- lockProductForUpdate over the legacy product rows. -/
def lockProductForUpdate (db : LegacyDB) (productId : String) :
    Option LegacyProductRow :=
  db.products.find? (fun p => p.id == productId)

/-- Replace the first order row with the given id. -/
def replaceFirstOrder (l : List OrderRow) (orderId : String)
    (f : OrderRow → OrderRow) : List OrderRow :=
  match l with
  | [] => []
  | o :: rest =>
    if o.id == orderId then f o :: rest
    else o :: replaceFirstOrder rest orderId f

/-- Replace the first legacy product row with the given id, applying a
currentStock-only update; none when the row is missing. -/
def replaceFirstProduct (l : List LegacyProductRow) (productId : String)
    (f : Int → Int) : Option (List LegacyProductRow) :=
  match l with
  | [] => none
  | p :: rest =>
    if p.id == productId then
      some ({ p with currentStock := f p.currentStock } :: rest)
    else
      (replaceFirstProduct rest productId f).map (fun l' => p :: l')

/-- tx.product.update of currentStock on the legacy product row; errors like
Prisma when the row is missing. -/
def productUpdateStock (db : LegacyDB) (productId : String) (f : Int → Int) :
    Except ServiceError LegacyDB :=
  match replaceFirstProduct db.products productId f with
  | none => .error .recordNotFound
  | some products' => .ok { db with products := products' }

/-- tx.stockMovement.create in the legacy movement table. -/
def legacyMovementCreate (db : LegacyDB) (productId : String)
    (type : LegacyMovementType) (quantity : Int)
    (reference note : Option String) (createdById : String) : LegacyDB :=
  { db with movements := db.movements ++
      [{ id := "mov" ++ toString db.movements.length, productId := productId,
         type := type, quantity := quantity, reference := reference,
         note := note, createdById := createdById }] }

/-- publishEvent in the legacy world (same outbox table). -/
def publishEventL (db : LegacyDB) (type : OutboxEventType)
    (payload : OutboxPayload) (idempotencyKey : Option String) : LegacyDB :=
  { db with outbox := db.outbox ++
      [{ id := "evt" ++ toString db.outbox.length, type := type,
         payload := payload, status := .PENDING, retryCount := 0,
         maxRetries := 3, error := none, idempotencyKey := idempotencyKey,
         processedAt := false }] }

/-- Body of the legacy reserveStockForOrder loop for one item: lock the
product, check sufficiency against product.currentStock, decrement
currentStock, then write the ORDER_OUT movement. -/
def reserveOrderOne (db : LegacyDB) (item : StockItem)
    (userId orderNumber : String) : Except ServiceError LegacyDB := do
  match lockProductForUpdate db item.productId with
  | none => .error (.notFound "Urun bulunamadi" (some item.productId))
  | some product =>
    if product.currentStock < item.quantity then
      .error (.insufficientStock product.sku product.currentStock
        item.quantity)
    else do
      let db ← productUpdateStock db item.productId
        (fun q => q - item.quantity)
      .ok (legacyMovementCreate db item.productId .ORDER_OUT item.quantity
        (some orderNumber) none userId)

/-- reserveStockForOrder (legacy): iterate the items in caller order. -/
def reserveStockForOrder (db : LegacyDB) (items : List StockItem)
    (userId orderNumber : String) : Except ServiceError LegacyDB :=
  match items with
  | [] => .ok db
  | item :: rest => do
    let db ← reserveOrderOne db item userId orderNumber
    reserveStockForOrder db rest userId orderNumber

/-- returnStockForCancel (legacy): increment currentStock and write a
CANCEL_IN movement for each item, without any check. -/
def returnStockForCancel (db : LegacyDB) (items : List StockItem)
    (userId orderNumber : String) : Except ServiceError LegacyDB :=
  match items with
  | [] => .ok db
  | item :: rest => do
    let db ← productUpdateStock db item.productId (fun q => q + item.quantity)
    let db := legacyMovementCreate db item.productId .CANCEL_IN item.quantity
      (some orderNumber) none userId
    returnStockForCancel db rest userId orderNumber

/-- approveOrder: lock the order, verify DRAFT status, reserve stock for all
items, flip to APPROVED, publish the ORDER_APPROVED event.  The function
accepts no organization argument and performs no tenant check. -/
def approveOrder (db : LegacyDB) (orderId userId : String) :
    Except ServiceError (LegacyDB × OrderRow) := do
  match lockOrderForUpdate db orderId with
  | none => .error (.notFound "Siparis bulunamadi" none)
  | some order =>
    if order.status ≠ .DRAFT then
      .error (.invalidOrderStatus (orderStatusStr order.status) "APPROVED")
    else do
      let items := db.orderItems.filter (fun i => i.orderId == orderId)
      let db ← reserveStockForOrder db
        (items.map (fun i => { productId := i.productId,
                               quantity := i.quantity }))
        userId order.orderNumber
      let orders' := replaceFirstOrder db.orders orderId
        (fun o => { o with status := .APPROVED, approvedAt := true })
      let db := { db with orders := orders' }
      let db := publishEventL db .ORDER_APPROVED
        (.orderApproved orderId order.orderNumber userId)
        (some ("order:approve:" ++ orderId))
      match lockOrderForUpdate db orderId with
      | some updated => .ok (db, updated)
      | none => .error .recordNotFound

/-- cancelOrder: lock the order, verify APPROVED status, return stock for
all items, flip to CANCELLED.  No organization check exists here either. -/
def cancelOrder (db : LegacyDB) (orderId userId : String) :
    Except ServiceError (LegacyDB × OrderRow) := do
  match lockOrderForUpdate db orderId with
  | none => .error (.notFound "Siparis bulunamadi" none)
  | some order =>
    if order.status ≠ .APPROVED then
      .error (.invalidOrderStatus (orderStatusStr order.status) "CANCELLED")
    else do
      let items := db.orderItems.filter (fun i => i.orderId == orderId)
      let db ← returnStockForCancel db
        (items.map (fun i => { productId := i.productId,
                               quantity := i.quantity }))
        userId order.orderNumber
      let orders' := replaceFirstOrder db.orders orderId
        (fun o => { o with status := .CANCELLED, cancelledAt := true })
      let db := { db with orders := orders' }
      match lockOrderForUpdate db orderId with
      | some updated => .ok (db, updated)
      | none => .error .recordNotFound

/-- The invoices existing for one order (the order.invoices include). -/
def invoicesFor (db : LegacyDB) (orderId : String) : List InvoiceRow :=
  db.invoices.filter (fun i => i.orderId == orderId)

/-- createInvoice: the order must exist and be APPROVED, no invoice may
already exist for it, then a sequential FAT number is issued and the
invoice inserted, all inside one transaction. -/
def createInvoice (db : LegacyDB) (orderId userId : String) :
    Except ServiceError (LegacyDB × InvoiceRow) := do
  match db.orders.find? (fun o => o.id == orderId) with
  | none => .error (.notFound "Siparis bulunamadi" none)
  | some order =>
    if order.status ≠ .APPROVED then
      .error (.invalidOrderStatus (orderStatusStr order.status)
        "INVOICE_CREATE")
    else if (invoicesFor db orderId).length > 0 then
      .error (.duplicateInvoice order.orderNumber)
    else
      let invoiceNumber := generateSequentialNumber
        (db.invoices.map (fun i => i.invoiceNumber)) "FAT" db.year
      let inv : InvoiceRow :=
        { id := "inv" ++ toString db.invoices.length,
          invoiceNumber := invoiceNumber, orderId := orderId,
          totalAmount := order.totalAmount, createdById := userId }
      .ok ({ db with invoices := db.invoices ++ [inv] }, inv)

/-- handleOrderApproved: run createInvoice for the approved order; a
DuplicateInvoice failure is the idempotent case and is swallowed (the event
is then marked DONE); any other failure propagates for retry.  The thrown
createInvoice transaction is rolled back, so the handler returns the
unchanged database in the idempotent case. -/
def handleOrderApproved (db : LegacyDB) (orderId userId : String) :
    Except ServiceError LegacyDB :=
  match createInvoice db orderId userId with
  | .ok (db', _) => .ok db'
  | .error (.duplicateInvoice _) => .ok db
  | .error e => .error e

/-- One status write of the outbox worker, recorded in order. -/
inductive WorkerWrite where
  | statusWrite (id : String) (status : OutboxStatus)
deriving DecidableEq, Repr

/-- Replace the first outbox row with the given id (Prisma update on the
primary key). -/
def replaceFirstEvent (l : List OutboxRow) (id : String)
    (f : OutboxRow → OutboxRow) : List OutboxRow :=
  match l with
  | [] => []
  | e :: rest =>
    if e.id == id then f e :: rest
    else e :: replaceFirstEvent rest id f

/-- processNextEvent from the outbox worker: claim the oldest PENDING event
(the list is in creation order), mark it PROCESSING, dispatch it to the
handler; on success mark DONE with a processed timestamp; on failure
increment the retry count and either dead-letter it as FAILED with the
error message, or revert it to PENDING.  The handler is the imported
handleOutboxEvent dispatcher, passed as a function; its failure is caught,
so the bookkeeping always commits.  Returns the new table, the ordered
status writes, and whether an event was processed. -/
def processNextEvent (handler : OutboxEventType → OutboxPayload → Except String Unit)
    (events : List OutboxRow) : List OutboxRow × List WorkerWrite × Bool :=
  match events.find? (fun e => e.status == .PENDING) with
  | none => (events, [], false)
  | some event =>
    let events := replaceFirstEvent events event.id
      (fun e => { e with status := .PROCESSING })
    match handler event.type event.payload with
    | .ok _ =>
      (replaceFirstEvent events event.id
         (fun e => { e with status := .DONE, processedAt := true }),
       [.statusWrite event.id .PROCESSING, .statusWrite event.id .DONE], true)
    | .error msg =>
      let newRetryCount := event.retryCount + 1
      let isFinal := event.maxRetries ≤ newRetryCount
      let finalStatus : OutboxStatus := if isFinal then .FAILED else .PENDING
      (replaceFirstEvent events event.id
         (fun e => { e with status := finalStatus,
                            retryCount := newRetryCount, error := some msg,
                            processedAt := isFinal }),
       [.statusWrite event.id .PROCESSING, .statusWrite event.id finalStatus],
       true)


/-- Current balance of a pair, 0 when no row exists (getStockLevel shape). -/
def stockQty (db : DB) (productId warehouseId : String) : Int :=
  match lockStockForUpdate db productId warehouseId with
  | some s => s.quantity
  | none => 0

theorem find?_stockKey_fields {l : List StockRow} {p w : String} {s : StockRow}
    (h : l.find? (stockKey p w) = some s) :
    s.productId = p ∧ s.warehouseId = w ∧ s ∈ l := by
  have hmem := List.mem_of_find?_eq_some h
  have hpred := List.find?_some h
  simp only [stockKey, Bool.and_eq_true, beq_iff_eq] at hpred
  exact ⟨hpred.1, hpred.2, hmem⟩

theorem replaceFirstStock_eq_none {l : List StockRow} {p w : String}
    {f : Int → Int} (h : l.find? (stockKey p w) = none) :
    replaceFirstStock l p w f = none := by
  induction l with
  | nil => rfl
  | cons x xs ih =>
    simp only [List.find?] at h
    cases hx : stockKey p w x with
    | true =>
      rw [hx] at h
      exact absurd h (by simp)
    | false =>
      rw [hx] at h
      simp only [replaceFirstStock, hx]
      rw [if_neg (by simp), ih h]
      rfl

theorem replaceFirstStock_eq_some {l : List StockRow} {p w : String}
    {f : Int → Int} {s : StockRow} (h : l.find? (stockKey p w) = some s) :
    ∃ l', replaceFirstStock l p w f = some l' := by
  induction l with
  | nil => simp at h
  | cons x xs ih =>
    simp only [List.find?] at h
    cases hx : stockKey p w x with
    | true =>
      exact ⟨{ x with quantity := f x.quantity } :: xs, by
        simp only [replaceFirstStock, hx, if_true]⟩
    | false =>
      rw [hx] at h
      obtain ⟨l', hl'⟩ := ih h
      exact ⟨x :: l', by
        simp only [replaceFirstStock, hx, Bool.false_eq_true, if_false, hl',
          Option.map_some']⟩

theorem find?_replaceFirstStock_same {l l' : List StockRow} {p w : String}
    {f : Int → Int} {s : StockRow} (h : l.find? (stockKey p w) = some s)
    (hrep : replaceFirstStock l p w f = some l') :
    l'.find? (stockKey p w) = some { s with quantity := f s.quantity } := by
  induction l generalizing l' with
  | nil => simp at h
  | cons x xs ih =>
    simp only [List.find?] at h
    simp only [replaceFirstStock] at hrep
    cases hx : stockKey p w x with
    | true =>
      rw [hx] at h
      rw [hx] at hrep
      rw [if_pos rfl] at hrep
      have hxs : x = s := by simpa using h
      subst hxs
      have hl : ({ x with quantity := f x.quantity } : StockRow) :: xs = l' := by
        simpa using hrep
      subst hl
      have hkey : stockKey p w ({ x with quantity := f x.quantity } : StockRow) = true := by
        simp only [stockKey] at hx ⊢
        exact hx
      simp only [List.find?, hkey]
    | false =>
      rw [hx] at h
      rw [hx] at hrep
      rw [if_neg (by simp)] at hrep
      cases hxs : replaceFirstStock xs p w f with
      | none => rw [hxs] at hrep; simp at hrep
      | some ys =>
        rw [hxs] at hrep
        simp only [Option.map_some'] at hrep
        obtain rfl : x :: ys = l' := by injection hrep
        simp only [List.find?, hx]
        exact ih h hxs

theorem find?_replaceFirstStock_other {l l' : List StockRow} {p w : String}
    {f : Int → Int} (hrep : replaceFirstStock l p w f = some l')
    (p' w' : String) (hne : ¬(p' = p ∧ w' = w)) :
    l'.find? (stockKey p' w') = l.find? (stockKey p' w') := by
  induction l generalizing l' with
  | nil => simp [replaceFirstStock] at hrep
  | cons x xs ih =>
    simp only [replaceFirstStock] at hrep
    cases hx : stockKey p w x with
    | true =>
      rw [hx] at hrep
      rw [if_pos rfl] at hrep
      obtain rfl : ({ x with quantity := f x.quantity } : StockRow) :: xs = l' := by
        injection hrep
      have hxkey : stockKey p' w' ({ x with quantity := f x.quantity } : StockRow) =
          stockKey p' w' x := by
        simp only [stockKey]
      simp only [List.find?, hxkey]
      cases hx' : stockKey p' w' x with
      | true =>
        exfalso
        simp only [stockKey, Bool.and_eq_true, beq_iff_eq] at hx hx'
        exact hne ⟨hx'.1.symm.trans hx.1, hx'.2.symm.trans hx.2⟩
      | false => rfl
    | false =>
      rw [hx] at hrep
      rw [if_neg (by simp)] at hrep
      cases hxs : replaceFirstStock xs p w f with
      | none => rw [hxs] at hrep; simp at hrep
      | some ys =>
        rw [hxs] at hrep
        simp only [Option.map_some'] at hrep
        obtain rfl : x :: ys = l' := by injection hrep
        simp only [List.find?]
        cases hx' : stockKey p' w' x with
        | true => rfl
        | false => exact ih hxs

theorem mem_replaceFirstStock {l l' : List StockRow} {p w : String}
    {f : Int → Int} {s : StockRow} (hfind : l.find? (stockKey p w) = some s)
    (hrep : replaceFirstStock l p w f = some l')
    {x : StockRow} (hx : x ∈ l') :
    x ∈ l ∨ x = { s with quantity := f s.quantity } := by
  induction l generalizing l' with
  | nil => simp [replaceFirstStock] at hrep
  | cons y ys ih =>
    simp only [List.find?] at hfind
    simp only [replaceFirstStock] at hrep
    cases hy : stockKey p w y with
    | true =>
      rw [hy] at hrep hfind
      rw [if_pos rfl] at hrep
      have hys : y = s := by simpa using hfind
      subst hys
      obtain rfl : ({ y with quantity := f y.quantity } : StockRow) :: ys = l' := by
        injection hrep
      rcases List.mem_cons.mp hx with h | h
      · exact Or.inr h
      · exact Or.inl (List.mem_cons_of_mem _ h)
    | false =>
      rw [hy] at hrep hfind
      rw [if_neg (by simp)] at hrep
      cases hys : replaceFirstStock ys p w f with
      | none => rw [hys] at hrep; simp at hrep
      | some zs =>
        rw [hys] at hrep
        simp only [Option.map_some'] at hrep
        obtain rfl : y :: zs = l' := by injection hrep
        rcases List.mem_cons.mp hx with h | h
        · exact Or.inl (by rw [h]; exact List.mem_cons_self _ _)
        · rcases ih hfind hys h with h' | hxs
          · exact Or.inl (List.mem_cons_of_mem _ h')
          · exact Or.inr hxs

theorem replaceFirstStock_keys {l l' : List StockRow} {p w : String}
    {f : Int → Int} (hrep : replaceFirstStock l p w f = some l') :
    l'.map (fun t => (t.productId, t.warehouseId)) =
      l.map (fun t => (t.productId, t.warehouseId)) := by
  induction l generalizing l' with
  | nil => simp [replaceFirstStock] at hrep
  | cons y ys ih =>
    simp only [replaceFirstStock] at hrep
    cases hy : stockKey p w y with
    | true =>
      rw [hy] at hrep
      rw [if_pos rfl] at hrep
      obtain rfl : ({ y with quantity := f y.quantity } : StockRow) :: ys = l' := by
        injection hrep
      simp
    | false =>
      rw [hy] at hrep
      rw [if_neg (by simp)] at hrep
      cases hys : replaceFirstStock ys p w f with
      | none => rw [hys] at hrep; simp at hrep
      | some zs =>
        rw [hys] at hrep
        simp only [Option.map_some'] at hrep
        obtain rfl : y :: zs = l' := by injection hrep
        simp only [List.map_cons]
        rw [ih hys]

theorem validateProductOwnership_ok {db : DB} {pid org : String}
    {prod : ProductRow} (hp : db.products.find? (fun p => p.id == pid) = some prod)
    (hpo : prod.organizationId = org) :
    validateProductOwnership db pid org = .ok prod.sku := by
  simp [validateProductOwnership, hp, hpo]

theorem validateWarehouseOwnership_ok {db : DB} {wid org : String}
    {wh : WarehouseRow} (hw : db.warehouses.find? (fun w => w.id == wid) = some wh)
    (hwo : wh.organizationId = org) :
    validateWarehouseOwnership db wid org = .ok () := by
  simp [validateWarehouseOwnership, hw, hwo]

theorem stockUpdateQuantity_ok {db : DB} {p w : String} {s : StockRow}
    (f : Int → Int) (h : lockStockForUpdate db p w = some s) :
    ∃ db', stockUpdateQuantity db p w f = .ok db' ∧
      db'.products = db.products ∧ db'.warehouses = db.warehouses ∧
      db'.movements = db.movements ∧ db'.sales = db.sales ∧
      db'.saleItems = db.saleItems ∧ db'.outbox = db.outbox ∧
      db'.log = db.log ++ [.stockWrite p w] ∧ db'.now = db.now ∧
      lockStockForUpdate db' p w = some { s with quantity := f s.quantity } ∧
      (∀ p' w', ¬(p' = p ∧ w' = w) →
        lockStockForUpdate db' p' w' = lockStockForUpdate db p' w') ∧
      (∀ x ∈ db'.stocks, x ∈ db.stocks ∨
        x = { s with quantity := f s.quantity }) ∧
      db'.stocks.map (fun t => (t.productId, t.warehouseId)) =
        db.stocks.map (fun t => (t.productId, t.warehouseId)) := by
  obtain ⟨l', hl'⟩ := replaceFirstStock_eq_some (f := f) h
  refine ⟨{ db with stocks := l', log := db.log ++ [.stockWrite p w] }, ?_, by
    simp, by simp, by simp, by simp, by simp, by simp, by simp, by simp,
    ?_, ?_, ?_, ?_⟩
  · simp [stockUpdateQuantity, hl']
  · simpa [lockStockForUpdate] using find?_replaceFirstStock_same h hl'
  · intro p' w' hne
    simpa [lockStockForUpdate] using find?_replaceFirstStock_other hl' p' w' hne
  · intro x hx
    exact mem_replaceFirstStock h hl' hx
  · simpa using replaceFirstStock_keys hl'

theorem exc_bind_ok {ε α β : Type} (a : α) (f : α → Except ε β) :
    (Except.ok a >>= f) = f a := rfl

theorem exc_bind_err {ε α β : Type} (e : ε) (f : α → Except ε β) :
    ((Except.error e : Except ε α) >>= f) = .error e := rfl

/-- The OUT movement row decreaseStock appends. -/
def outMovementRow (db : DB) (par : StockMutationParams) : StockMovementRow :=
  { id := "mov" ++ toString db.movements.length,
    organizationId := par.organizationId, productId := par.productId,
    warehouseId := par.warehouseId, type := .OUT,
    referenceType := par.referenceType, quantity := par.quantity,
    reference := par.reference, note := par.note, createdById := par.userId }

/-- The LOW_STOCK outbox row emitted when the threshold is breached after a
decrement. -/
def lowStockRow (db : DB) (par : StockMutationParams) (sku : String)
    (s : StockRow) : OutboxRow :=
  { id := "evt" ++ toString db.outbox.length, type := .LOW_STOCK,
    payload := .lowStock par.productId par.warehouseId sku
      (s.quantity - par.quantity) s.minQuantity,
    status := .PENDING, retryCount := 0, maxRetries := 3, error := none,
    idempotencyKey := some ("low_stock:" ++ par.productId ++ ":" ++
      par.warehouseId ++ ":" ++ toString (db.now / 60000)),
    processedAt := false }

theorem decreaseStock_ok {db : DB} {par : StockMutationParams}
    {prod : ProductRow} {wh : WarehouseRow} {s : StockRow}
    (hp : db.products.find? (fun x => x.id == par.productId) = some prod)
    (hpo : prod.organizationId = par.organizationId)
    (hw : db.warehouses.find? (fun x => x.id == par.warehouseId) = some wh)
    (hwo : wh.organizationId = par.organizationId)
    (hs : lockStockForUpdate db par.productId par.warehouseId = some s)
    (hq : 0 < par.quantity) (hq2 : par.quantity ≤ s.quantity) :
    ∃ db', decreaseStock db par = .ok (db',
        { movementId := "mov" ++ toString db.movements.length,
          previousQuantity := s.quantity,
          newQuantity := s.quantity - par.quantity,
          productId := par.productId, warehouseId := par.warehouseId }) ∧
      db'.products = db.products ∧ db'.warehouses = db.warehouses ∧
      db'.sales = db.sales ∧ db'.saleItems = db.saleItems ∧
      db'.now = db.now ∧
      db'.movements = db.movements ++ [outMovementRow db par] ∧
      db'.log = db.log ++
        [.movementInsert par.productId par.warehouseId,
         .stockWrite par.productId par.warehouseId] ++
        (if 0 < s.minQuantity ∧ s.quantity - par.quantity ≤ s.minQuantity
         then [.outboxInsert] else []) ∧
      db'.outbox = db.outbox ++
        (if 0 < s.minQuantity ∧ s.quantity - par.quantity ≤ s.minQuantity
         then [lowStockRow db par prod.sku s] else []) ∧
      lockStockForUpdate db' par.productId par.warehouseId =
        some { s with quantity := s.quantity - par.quantity } ∧
      (∀ p' w', ¬(p' = par.productId ∧ w' = par.warehouseId) →
        lockStockForUpdate db' p' w' = lockStockForUpdate db p' w') ∧
      (∀ x ∈ db'.stocks, x ∈ db.stocks ∨
        x = { s with quantity := s.quantity - par.quantity }) ∧
      db'.stocks.map (fun t => (t.productId, t.warehouseId)) =
        db.stocks.map (fun t => (t.productId, t.warehouseId)) := by
  have hnle : ¬(par.quantity ≤ 0) := not_le.mpr hq
  have hnlt : ¬(s.quantity < par.quantity) := not_lt.mpr hq2
  obtain ⟨db₂, hupd, hprod2, hwh2, hmov2, hsal2, hsi2, hout2, hlog2, hnow2,
      hlock2, hother2, hmem2, hkeys2⟩ :=
    @stockUpdateQuantity_ok
      { db with
        movements := db.movements ++ [outMovementRow db par],
        log := db.log ++ [.movementInsert par.productId par.warehouseId] }
      par.productId par.warehouseId _
      (fun q => q - par.quantity) hs
  refine ⟨emitLowStockEventIfNeeded db₂ par.productId par.warehouseId prod.sku
    (s.quantity - par.quantity) s.minQuantity, ?_, ?_⟩
  · simp only [decreaseStock, if_neg hnle,
      validateProductOwnership_ok hp hpo, exc_bind_ok,
      validateWarehouseOwnership_ok hw hwo, hs, movementCreate,
      outMovementRow]
    simp only [outMovementRow] at hupd
    rw [if_neg hnlt]
    rw [hupd]
    rfl
  · by_cases hcond : 0 < s.minQuantity ∧ s.quantity - par.quantity ≤ s.minQuantity
    · have hemit : emitLowStockEventIfNeeded db₂ par.productId par.warehouseId
          prod.sku (s.quantity - par.quantity) s.minQuantity =
          publishEvent db₂ .LOW_STOCK
            (.lowStock par.productId par.warehouseId prod.sku
              (s.quantity - par.quantity) s.minQuantity)
            (some ("low_stock:" ++ par.productId ++ ":" ++ par.warehouseId ++
              ":" ++ toString (db₂.now / 60000))) := by
        simp [emitLowStockEventIfNeeded, hcond.1, hcond.2]
      rw [hemit]
      refine ⟨by simp [publishEvent, hprod2], by simp [publishEvent, hwh2],
        by simp [publishEvent, hsal2], by simp [publishEvent, hsi2],
        by simp [publishEvent, hnow2], by simp [publishEvent, hmov2], ?_, ?_,
        ?_, ?_, ?_, ?_⟩
      · simp [publishEvent, hlog2]
        rw [if_pos]
        exact ⟨hcond.1, by omega⟩
      · simp [publishEvent, hout2, hnow2, lowStockRow]
        rw [if_pos]
        exact ⟨hcond.1, by omega⟩
      · simpa [publishEvent, lockStockForUpdate] using hlock2
      · intro p' w' hne
        simpa [publishEvent, lockStockForUpdate] using hother2 p' w' hne
      · intro x hx
        simp only [publishEvent] at hx
        exact hmem2 x hx
      · simpa [publishEvent] using hkeys2
    · have hb : ¬((decide (s.minQuantity > 0) &&
          decide (s.quantity - par.quantity ≤ s.minQuantity)) = true) := by
        simpa [and_comm] using fun h1 h2 => hcond ⟨h2, h1⟩
      have hemit : emitLowStockEventIfNeeded db₂ par.productId par.warehouseId
          prod.sku (s.quantity - par.quantity) s.minQuantity = db₂ := by
        simp only [emitLowStockEventIfNeeded]
        rw [if_neg hb]
      rw [hemit]
      refine ⟨hprod2, hwh2, hsal2, hsi2, hnow2, hmov2, ?_, ?_, hlock2,
        hother2, hmem2, hkeys2⟩
      · rw [if_neg hcond]
        simpa using hlog2
      · rw [if_neg hcond]
        simpa using hout2

theorem decreaseStock_insufficient {db : DB} {par : StockMutationParams}
    {prod : ProductRow} {wh : WarehouseRow} {s : StockRow}
    (hp : db.products.find? (fun x => x.id == par.productId) = some prod)
    (hpo : prod.organizationId = par.organizationId)
    (hw : db.warehouses.find? (fun x => x.id == par.warehouseId) = some wh)
    (hwo : wh.organizationId = par.organizationId)
    (hs : lockStockForUpdate db par.productId par.warehouseId = some s)
    (hq : 0 < par.quantity) (hlt : s.quantity < par.quantity) :
    decreaseStock db par =
      .error (.insufficientStock prod.sku s.quantity par.quantity) := by
  have hnle : ¬(par.quantity ≤ 0) := not_le.mpr hq
  simp only [decreaseStock, if_neg hnle,
    validateProductOwnership_ok hp hpo, exc_bind_ok,
    validateWarehouseOwnership_ok hw hwo, hs]
  rw [if_pos hlt]

theorem decreaseStock_ok_inv {db : DB} {par : StockMutationParams} {db' : DB}
    {r : StockMutationResult} (h : decreaseStock db par = .ok (db', r)) :
    ∃ prod wh s,
      db.products.find? (fun x => x.id == par.productId) = some prod ∧
      prod.organizationId = par.organizationId ∧
      db.warehouses.find? (fun x => x.id == par.warehouseId) = some wh ∧
      wh.organizationId = par.organizationId ∧
      lockStockForUpdate db par.productId par.warehouseId = some s ∧
      0 < par.quantity ∧ par.quantity ≤ s.quantity := by
  simp only [decreaseStock] at h
  split at h
  · exact absurd h (by simp)
  next hq =>
    cases hp : db.products.find? (fun x => x.id == par.productId) with
    | none =>
      rw [show validateProductOwnership db par.productId par.organizationId =
        .error (.notFound "Urun bulunamadi" (some par.productId)) from by
          simp [validateProductOwnership, hp], exc_bind_err] at h
      exact absurd h (by simp)
    | some prod =>
      by_cases hpo : prod.organizationId = par.organizationId
      · rw [validateProductOwnership_ok hp hpo, exc_bind_ok] at h
        cases hw : db.warehouses.find? (fun x => x.id == par.warehouseId) with
        | none =>
          rw [show validateWarehouseOwnership db par.warehouseId
              par.organizationId =
            .error (.notFound "Depo bulunamadi" (some par.warehouseId)) from by
              simp [validateWarehouseOwnership, hw], exc_bind_err] at h
          exact absurd h (by simp)
        | some wh =>
          by_cases hwo : wh.organizationId = par.organizationId
          · rw [validateWarehouseOwnership_ok hw hwo, exc_bind_ok] at h
            cases hs : lockStockForUpdate db par.productId par.warehouseId with
            | none =>
              rw [hs] at h
              exact absurd h (by simp)
            | some s =>
              rw [hs] at h
              simp only at h
              split at h
              · exact absurd h (by simp)
              next hge =>
                exact ⟨prod, wh, s, rfl, hpo, rfl, hwo, rfl, not_le.mp hq,
                  not_lt.mp hge⟩
          · rw [show validateWarehouseOwnership db par.warehouseId
                par.organizationId = .error (.organizationMismatch "Warehouse"
                par.warehouseId par.organizationId) from by
                  simp [validateWarehouseOwnership, hw, hwo], exc_bind_err] at h
            exact absurd h (by simp)
      · rw [show validateProductOwnership db par.productId par.organizationId =
          .error (.organizationMismatch "Product" par.productId
            par.organizationId) from by
              simp [validateProductOwnership, hp, hpo], exc_bind_err] at h
        exact absurd h (by simp)

/-- The OUT movement row a reserveStock item writes. -/
def saleOutMovementRow (db : DB) (org wid : String) (item : StockItem)
    (uid ref : String) : StockMovementRow :=
  { id := "mov" ++ toString db.movements.length, organizationId := org,
    productId := item.productId, warehouseId := wid, type := .OUT,
    referenceType := .SALE, quantity := item.quantity,
    reference := some ref, note := none, createdById := uid }

theorem reserveOne_insufficient {db : DB} {org wid : String} {item : StockItem}
    {uid ref : String} {prod : ProductRow} {s : StockRow}
    (hp : db.products.find? (fun x => x.id == item.productId) = some prod)
    (hpo : prod.organizationId = org)
    (hs : lockStockForUpdate db item.productId wid = some s)
    (hlt : s.quantity < item.quantity) :
    reserveOne db org wid item uid ref =
      .error (.insufficientStock prod.sku s.quantity item.quantity) := by
  simp only [reserveOne, validateProductOwnership_ok hp hpo, exc_bind_ok, hs]
  rw [if_pos hlt]

theorem reserveOne_ok {db : DB} {org wid : String} {item : StockItem}
    {uid ref : String} {prod : ProductRow} {s : StockRow}
    (hp : db.products.find? (fun x => x.id == item.productId) = some prod)
    (hpo : prod.organizationId = org)
    (hs : lockStockForUpdate db item.productId wid = some s)
    (hge : item.quantity ≤ s.quantity) :
    ∃ db', reserveOne db org wid item uid ref = .ok db' ∧
      db'.products = db.products ∧ db'.warehouses = db.warehouses ∧
      db'.sales = db.sales ∧ db'.saleItems = db.saleItems ∧
      db'.outbox = db.outbox ∧ db'.now = db.now ∧
      db'.movements = db.movements ++ [saleOutMovementRow db org wid item uid ref] ∧
      db'.log = db.log ++ [.movementInsert item.productId wid,
                           .stockWrite item.productId wid] ∧
      lockStockForUpdate db' item.productId wid =
        some { s with quantity := s.quantity - item.quantity } ∧
      (∀ p' w', ¬(p' = item.productId ∧ w' = wid) →
        lockStockForUpdate db' p' w' = lockStockForUpdate db p' w') ∧
      (∀ x ∈ db'.stocks, x ∈ db.stocks ∨
        x = { s with quantity := s.quantity - item.quantity }) ∧
      db'.stocks.map (fun t => (t.productId, t.warehouseId)) =
        db.stocks.map (fun t => (t.productId, t.warehouseId)) := by
  have hnlt : ¬(s.quantity < item.quantity) := not_lt.mpr hge
  obtain ⟨db₂, hupd, hprod2, hwh2, hmov2, hsal2, hsi2, hout2, hlog2, hnow2,
      hlock2, hother2, hmem2, hkeys2⟩ :=
    @stockUpdateQuantity_ok
      { db with
        movements := db.movements ++ [saleOutMovementRow db org wid item uid ref],
        log := db.log ++ [.movementInsert item.productId wid] }
      item.productId wid _
      (fun q => q - item.quantity) hs
  refine ⟨db₂, ?_, hprod2, hwh2, hsal2, hsi2, hout2, hnow2,
    by simpa using hmov2, by simpa using hlog2, hlock2, hother2,
    by simpa using hmem2, by simpa using hkeys2⟩
  simp only [reserveOne, validateProductOwnership_ok hp hpo, exc_bind_ok, hs]
  rw [if_neg hnlt]
  simp only [movementCreate, saleOutMovementRow] at hupd ⊢
  rw [hupd]

theorem reserveOne_ok_inv {db : DB} {org wid : String} {item : StockItem}
    {uid ref : String} {db' : DB}
    (h : reserveOne db org wid item uid ref = .ok db') :
    ∃ prod s,
      db.products.find? (fun x => x.id == item.productId) = some prod ∧
      prod.organizationId = org ∧
      lockStockForUpdate db item.productId wid = some s ∧
      item.quantity ≤ s.quantity := by
  simp only [reserveOne] at h
  cases hp : db.products.find? (fun x => x.id == item.productId) with
  | none =>
    rw [show validateProductOwnership db item.productId org =
      .error (.notFound "Urun bulunamadi" (some item.productId)) from by
        simp [validateProductOwnership, hp], exc_bind_err] at h
    exact absurd h (by simp)
  | some prod =>
    by_cases hpo : prod.organizationId = org
    · rw [validateProductOwnership_ok hp hpo, exc_bind_ok] at h
      cases hs : lockStockForUpdate db item.productId wid with
      | none =>
        rw [hs] at h
        exact absurd h (by simp)
      | some s =>
        rw [hs] at h
        simp only at h
        split at h
        · exact absurd h (by simp)
        next hge => exact ⟨prod, s, rfl, hpo, rfl, not_lt.mp hge⟩
    · rw [show validateProductOwnership db item.productId org =
        .error (.organizationMismatch "Product" item.productId org) from by
          simp [validateProductOwnership, hp, hpo], exc_bind_err] at h
      exact absurd h (by simp)


/-- Invariant: every stock row carries a non-negative balance. -/
def allStocksNonneg (db : DB) : Prop :=
  ∀ x ∈ db.stocks, 0 ≤ x.quantity

theorem decreaseStock_nonneg {db : DB} {par : StockMutationParams} {db' : DB}
    {r : StockMutationResult} (hnn : allStocksNonneg db)
    (h : decreaseStock db par = .ok (db', r)) : allStocksNonneg db' := by
  obtain ⟨prod, wh, s, hp, hpo, hw, hwo, hs, hq, hq2⟩ := decreaseStock_ok_inv h
  obtain ⟨db'', heq, -, -, -, -, -, -, -, -, -, -, hmem, -⟩ :=
    decreaseStock_ok hp hpo hw hwo hs hq hq2
  rw [h] at heq
  obtain rfl : db' = db'' := by
    injection heq with heq'
    exact congrArg Prod.fst heq'
  intro x hx
  rcases hmem x hx with hold | rfl
  · exact hnn x hold
  · simpa using sub_nonneg.mpr hq2

theorem reserveOne_nonneg {db : DB} {org wid : String} {item : StockItem}
    {uid ref : String} {db' : DB} (hnn : allStocksNonneg db)
    (h : reserveOne db org wid item uid ref = .ok db') :
    allStocksNonneg db' := by
  obtain ⟨prod, s, hp, hpo, hs, hge⟩ := reserveOne_ok_inv h
  obtain ⟨db'', heq, -, -, -, -, -, -, -, -, -, -, hmem, -⟩ :=
    @reserveOne_ok _ _ _ _ uid ref _ _ hp hpo hs hge
  rw [h] at heq
  obtain rfl : db' = db'' := by injection heq
  intro x hx
  rcases hmem x hx with hold | rfl
  · exact hnn x hold
  · simpa using sub_nonneg.mpr hge

theorem reserveItems_nonneg {org wid uid ref : String} :
    ∀ (items : List StockItem) (db db' : DB), allStocksNonneg db →
      reserveItems db org wid items uid ref = .ok db' →
      allStocksNonneg db' := by
  intro items
  induction items with
  | nil =>
    intro db db' hnn h
    simp only [reserveItems] at h
    obtain rfl : db = db' := by injection h
    exact hnn
  | cons item rest ih =>
    intro db db' hnn h
    simp only [reserveItems] at h
    cases hr : reserveOne db org wid item uid ref with
    | error e =>
      rw [hr, exc_bind_err] at h
      exact absurd h (by simp)
    | ok db₁ =>
      rw [hr, exc_bind_ok] at h
      exact ih db₁ db' (reserveOne_nonneg hnn hr) h

theorem reserveStock_nonneg {db : DB} {org wid : String}
    {items : List StockItem} {uid ref : String} {db' : DB}
    (hnn : allStocksNonneg db)
    (h : reserveStock db org wid items uid ref = .ok db') :
    allStocksNonneg db' := by
  simp only [reserveStock] at h
  cases hv : validateWarehouseOwnership db wid org with
  | error e =>
    rw [hv, exc_bind_err] at h
    exact absurd h (by simp)
  | ok u =>
    rw [hv, exc_bind_ok] at h
    exact reserveItems_nonneg items db db' hnn h

/-- C1: for every decreaseStock call and every item processed by
reserveStock, when the requested quantity exceeds the locked stock row
quantity the operation fails with InsufficientStock carrying
(sku, available, requested), the post-transaction state is unchanged and no
StockMovement row is created; otherwise the balance is decremented by
exactly the requested amount; and both operations preserve the
non-negativity of every stock balance, so they never produce a row with
quantity below zero. -/
theorem claim_C1 :
    (∀ (db : DB) (par : StockMutationParams) (prod : ProductRow)
       (wh : WarehouseRow) (s : StockRow),
       db.products.find? (fun x => x.id == par.productId) = some prod →
       prod.organizationId = par.organizationId →
       db.warehouses.find? (fun x => x.id == par.warehouseId) = some wh →
       wh.organizationId = par.organizationId →
       lockStockForUpdate db par.productId par.warehouseId = some s →
       0 < par.quantity →
       ((s.quantity < par.quantity →
           decreaseStock db par =
             .error (.insufficientStock prod.sku s.quantity par.quantity) ∧
           applyTx (decreaseStock db par) db = db) ∧
        (par.quantity ≤ s.quantity →
           ∃ db' r, decreaseStock db par = .ok (db', r) ∧
             r.previousQuantity = s.quantity ∧
             r.newQuantity = s.quantity - par.quantity ∧
             stockQty db' par.productId par.warehouseId =
               s.quantity - par.quantity ∧
             db'.movements = db.movements ++ [outMovementRow db par]))) ∧
    (∀ (db : DB) (org wid : String) (item : StockItem) (uid ref : String)
       (prod : ProductRow) (s : StockRow),
       db.products.find? (fun x => x.id == item.productId) = some prod →
       prod.organizationId = org →
       lockStockForUpdate db item.productId wid = some s →
       ((s.quantity < item.quantity →
           reserveOne db org wid item uid ref =
             .error (.insufficientStock prod.sku s.quantity item.quantity)) ∧
        (item.quantity ≤ s.quantity →
           ∃ db', reserveOne db org wid item uid ref = .ok db' ∧
             stockQty db' item.productId wid = s.quantity - item.quantity ∧
             db'.movements = db.movements ++
               [saleOutMovementRow db org wid item uid ref]))) ∧
    (∀ (db : DB) (par : StockMutationParams) (db' : DB)
       (r : StockMutationResult), allStocksNonneg db →
       decreaseStock db par = .ok (db', r) → allStocksNonneg db') ∧
    (∀ (db : DB) (org wid : String) (items : List StockItem)
       (uid ref : String) (db' : DB), allStocksNonneg db →
       reserveStock db org wid items uid ref = .ok db' →
       allStocksNonneg db') := by
  refine ⟨?_, ?_, ?_, ?_⟩
  · intro db par prod wh s hp hpo hw hwo hs hq
    constructor
    · intro hlt
      have herr := decreaseStock_insufficient hp hpo hw hwo hs hq hlt
      exact ⟨herr, by simp [applyTx, herr]⟩
    · intro hge
      obtain ⟨db', heq, -, -, -, -, -, hmov, -, -, hlock, -, -, -⟩ :=
        decreaseStock_ok hp hpo hw hwo hs hq hge
      exact ⟨db', _, heq, rfl, rfl, by simp [stockQty, hlock], hmov⟩
  · intro db org wid item uid ref prod s hp hpo hs
    constructor
    · intro hlt
      exact reserveOne_insufficient hp hpo hs hlt
    · intro hge
      obtain ⟨db', heq, -, -, -, -, -, -, hmov, -, hlock, -, -, -⟩ :=
        @reserveOne_ok _ _ _ _ uid ref _ _ hp hpo hs hge
      exact ⟨db', heq, by simp [stockQty, hlock], hmov⟩
  · intro db par db' r hnn h
    exact decreaseStock_nonneg hnn h
  · intro db org wid items uid ref db' hnn h
    exact reserveStock_nonneg hnn h

/-- Concrete database for witnesses: one product, one warehouse, one stock
row with quantity 5. -/
def wdb0 : DB :=
  { products := [{ id := "p1", sku := "SKU1", organizationId := "org1" }],
    warehouses := [{ id := "w1", organizationId := "org1" }],
    stocks := [{ id := "s1", organizationId := "org1", productId := "p1",
                 warehouseId := "w1", quantity := 5, minQuantity := 0 }],
    movements := [], sales := [], saleItems := [], outbox := [], log := [],
    now := 0 }

/-- Concrete decreaseStock parameters used by witnesses. -/
def parD (q : Int) : StockMutationParams :=
  { organizationId := "org1", productId := "p1", warehouseId := "w1",
    quantity := q, userId := "u1", referenceType := .MANUAL,
    reference := none, note := none }

/-- State after a successful decrement of 3 on the witness database. -/
def wdb1 : DB := applyTx (decreaseStock wdb0 (parD 3)) wdb0

theorem claim_C1_witness :
    ((5 : Int) < 10 ∧
     decreaseStock wdb0 (parD 10) =
       .error (.insufficientStock "SKU1" 5 10) ∧
     applyTx (decreaseStock wdb0 (parD 10)) wdb0 = wdb0) ∧
    (allStocksNonneg wdb0 ∧ allStocksNonneg wdb1) := by
  refine ⟨⟨by decide, ?_⟩, ?_, ?_⟩
  · exact (claim_C1.1 wdb0 (parD 10) ⟨"p1", "SKU1", "org1"⟩ ⟨"w1", "org1"⟩
      ⟨"s1", "org1", "p1", "w1", 5, 0⟩ (by decide) (by decide) (by decide)
      (by decide) (by decide) (by decide)).1 (by decide)
  · intro x hx
    simp only [wdb0] at hx
    simp only [List.mem_singleton] at hx
    subst hx
    decide
  · exact claim_C1.2.2.1 wdb0 (parD 3) wdb1
      ⟨"mov0", 5, 2, "p1", "w1"⟩
      (by intro x hx
          simp only [wdb0] at hx
          simp only [List.mem_singleton] at hx
          subst hx
          decide)
      (by rfl)

/-- The IN movement row a returnStock item writes. -/
def saleInMovementRow (db : DB) (org wid : String) (item : StockItem)
    (uid ref : String) : StockMovementRow :=
  { id := "mov" ++ toString db.movements.length, organizationId := org,
    productId := item.productId, warehouseId := wid, type := .IN,
    referenceType := .SALE, quantity := item.quantity,
    reference := some ref, note := some "Iptal - stok iade",
    createdById := uid }

theorem returnOne_ok {db : DB} {org wid : String} {item : StockItem}
    {uid ref : String} {s : StockRow}
    (hs : lockStockForUpdate db item.productId wid = some s) :
    ∃ db', returnOne db org wid item uid ref = .ok db' ∧
      db'.products = db.products ∧ db'.warehouses = db.warehouses ∧
      db'.sales = db.sales ∧ db'.saleItems = db.saleItems ∧
      db'.outbox = db.outbox ∧ db'.now = db.now ∧
      db'.movements = db.movements ++ [saleInMovementRow db org wid item uid ref] ∧
      db'.log = db.log ++ [.movementInsert item.productId wid,
                           .stockWrite item.productId wid] ∧
      lockStockForUpdate db' item.productId wid =
        some { s with quantity := s.quantity + item.quantity } ∧
      (∀ p' w', ¬(p' = item.productId ∧ w' = wid) →
        lockStockForUpdate db' p' w' = lockStockForUpdate db p' w') ∧
      (∀ x ∈ db'.stocks, x ∈ db.stocks ∨
        x = { s with quantity := s.quantity + item.quantity }) ∧
      db'.stocks.map (fun t => (t.productId, t.warehouseId)) =
        db.stocks.map (fun t => (t.productId, t.warehouseId)) := by
  obtain ⟨db₂, hupd, hprod2, hwh2, hmov2, hsal2, hsi2, hout2, hlog2, hnow2,
      hlock2, hother2, hmem2, hkeys2⟩ :=
    @stockUpdateQuantity_ok
      { db with
        movements := db.movements ++ [saleInMovementRow db org wid item uid ref],
        log := db.log ++ [.movementInsert item.productId wid] }
      item.productId wid _
      (fun q => q + item.quantity) hs
  refine ⟨db₂, ?_, hprod2, hwh2, hsal2, hsi2, hout2, hnow2,
    by simpa using hmov2, by simpa using hlog2, hlock2, hother2,
    by simpa using hmem2, by simpa using hkeys2⟩
  simp only [returnOne, movementCreate, saleInMovementRow] at hupd ⊢
  rw [hupd]

theorem returnOne_error {db : DB} {org wid : String} {item : StockItem}
    {uid ref : String} {e : ServiceError}
    (h : returnOne db org wid item uid ref = .error e) :
    e = .recordNotFound := by
  simp only [returnOne, movementCreate] at h
  simp only [stockUpdateQuantity] at h
  cases hrep : replaceFirstStock
      ({ db with
         movements := db.movements ++
           [{ id := "mov" ++ toString db.movements.length,
              organizationId := org, productId := item.productId,
              warehouseId := wid, type := .IN, referenceType := .SALE,
              quantity := item.quantity, reference := some ref,
              note := some "Iptal - stok iade", createdById := uid }],
         log := db.log ++ [.movementInsert item.productId wid] } : DB).stocks
      item.productId wid (fun q => q + item.quantity) with
  | none =>
    rw [hrep] at h
    injection h with h'
    exact h'.symm
  | some l' =>
    rw [hrep] at h
    exact absurd h (by simp)

theorem returnStock_error {org wid uid ref : String} :
    ∀ (items : List StockItem) (db : DB) (e : ServiceError),
      returnStock db org wid items uid ref = .error e →
      e = .recordNotFound := by
  intro items
  induction items with
  | nil =>
    intro db e h
    simp only [returnStock] at h
    exact absurd h (by simp)
  | cons item rest ih =>
    intro db e h
    simp only [returnStock] at h
    cases hr : returnOne db org wid item uid ref with
    | error e' =>
      rw [hr, exc_bind_err] at h
      injection h with h'
      exact h' ▸ returnOne_error hr
    | ok db₁ =>
      rw [hr, exc_bind_ok] at h
      exact ih db₁ e h

/-- Observable content of a movement row: pair, direction, magnitude. -/
def movementData (m : StockMovementRow) :
    String × String × StockMovementType × Int :=
  (m.productId, m.warehouseId, m.type, m.quantity)

/-- Total quantity the item list carries for one product. -/
def itemsTotal (items : List StockItem) (p : String) : Int :=
  ((items.filter (fun it => it.productId == p)).map (fun it => it.quantity)).sum

theorem returnStock_ok {org wid uid ref : String} :
    ∀ (items : List StockItem) (db : DB),
      (∀ item ∈ items, (lockStockForUpdate db item.productId wid).isSome) →
      ∃ db', returnStock db org wid items uid ref = .ok db' ∧
        db'.movements.map movementData = db.movements.map movementData ++
          items.map (fun it =>
            (it.productId, wid, StockMovementType.IN, it.quantity)) ∧
        (∀ p, stockQty db' p wid = stockQty db p wid + itemsTotal items p) := by
  intro items
  induction items with
  | nil =>
    intro db _
    exact ⟨db, rfl, by simp, fun p => by simp [itemsTotal]⟩
  | cons item rest ih =>
    intro db hex
    have hsome := hex item (List.mem_cons_self _ _)
    obtain ⟨s, hs⟩ := Option.isSome_iff_exists.mp hsome
    obtain ⟨db₁, heq1, -, -, -, -, -, -, hmov1, -, hlock1, hother1, -, -⟩ :=
      @returnOne_ok _ org _ _ uid ref _ hs
    have hex1 : ∀ it ∈ rest, (lockStockForUpdate db₁ it.productId wid).isSome := by
      intro it hit
      by_cases hip : it.productId = item.productId
      · rw [hip, hlock1]
        rfl
      · rw [hother1 it.productId wid (fun hc => hip hc.1)]
        exact hex it (List.mem_cons_of_mem _ hit)
    obtain ⟨db', heq', hmov', hqty'⟩ := ih db₁ hex1
    refine ⟨db', ?_, ?_, ?_⟩
    · simp only [returnStock, heq1, exc_bind_ok]
      exact heq'
    · rw [hmov', hmov1]
      simp [movementData, saleInMovementRow]
    · intro p
      rw [hqty' p]
      have hstep : stockQty db₁ p wid = stockQty db p wid +
          (if item.productId = p then item.quantity else 0) := by
        by_cases hip : item.productId = p
        · subst hip
          rw [if_pos rfl]
          simp only [stockQty, hlock1, hs]
        · rw [if_neg hip]
          rw [show stockQty db₁ p wid = stockQty db p wid from by
            simp only [stockQty,
              hother1 p wid (fun hc => hip hc.1.symm)]]
          ring
      rw [hstep]
      have htot : itemsTotal (item :: rest) p =
          (if item.productId = p then item.quantity else 0) +
            itemsTotal rest p := by
        by_cases hip : item.productId = p
        · simp [itemsTotal, List.filter_cons, hip]
        · simp [itemsTotal, List.filter_cons, hip]
      rw [htot]
      ring

/-- C10: returnStock performs no organization-ownership check and no
sufficiency check: its only possible failure is the missing-row update
error, never OrganizationMismatch and never InsufficientStock, and whenever
every item has a stock row it unconditionally appends one IN movement per
item, in order, and increments each balance by the returned amount —
unlike reserveStock, which validates the warehouse (and each product)
before mutating and fails with OrganizationMismatch on a foreign
warehouse. -/
theorem claim_C10 :
    (∀ (db : DB) (org wid : String) (items : List StockItem)
       (uid ref : String) (e : ServiceError),
       returnStock db org wid items uid ref = .error e →
       (∀ entity id o, e ≠ .organizationMismatch entity id o) ∧
       (∀ sku a r, e ≠ .insufficientStock sku a r)) ∧
    (∀ (db : DB) (org wid : String) (items : List StockItem)
       (uid ref : String),
       (∀ item ∈ items, (lockStockForUpdate db item.productId wid).isSome) →
       ∃ db', returnStock db org wid items uid ref = .ok db' ∧
         db'.movements.map movementData = db.movements.map movementData ++
           items.map (fun it =>
             (it.productId, wid, StockMovementType.IN, it.quantity)) ∧
         (∀ p, stockQty db' p wid = stockQty db p wid + itemsTotal items p)) ∧
    (∀ (db : DB) (org wid : String) (items : List StockItem)
       (uid ref : String) (wh : WarehouseRow),
       db.warehouses.find? (fun x => x.id == wid) = some wh →
       wh.organizationId ≠ org →
       reserveStock db org wid items uid ref =
         .error (.organizationMismatch "Warehouse" wid org)) := by
  refine ⟨?_, ?_, ?_⟩
  · intro db org wid items uid ref e h
    have he := returnStock_error items db e h
    subst he
    exact ⟨fun _ _ _ => by simp, fun _ _ _ => by simp⟩
  · intro db org wid items uid ref hex
    exact returnStock_ok items db hex
  · intro db org wid items uid ref wh hw hne
    have hv : validateWarehouseOwnership db wid org =
        .error (.organizationMismatch "Warehouse" wid org) := by
      simp [validateWarehouseOwnership, hw, hne]
    simp only [reserveStock, hv, exc_bind_err]

theorem claim_C10_witness :
    ((∀ item ∈ [({ productId := "p1", quantity := 2 } : StockItem)],
        (lockStockForUpdate wdb0 item.productId "w1").isSome) ∧
     ∃ db', returnStock wdb0 "org1" "w1"
         [{ productId := "p1", quantity := 2 }] "u1" "SAT-2026-00001" =
           .ok db' ∧
       db'.movements.map movementData = [("p1", "w1", .IN, 2)] ∧
       stockQty db' "p1" "w1" = 7) ∧
    (reserveStock wdb0 "org2" "w1" [{ productId := "p1", quantity := 2 }]
       "u1" "SAT-2026-00001" =
       .error (.organizationMismatch "Warehouse" "w1" "org2")) := by
  constructor
  · refine ⟨by decide, ?_⟩
    obtain ⟨db', heq, hmov, hqty⟩ := claim_C10.2.1 wdb0 "org1" "w1"
      [{ productId := "p1", quantity := 2 }] "u1" "SAT-2026-00001" (by decide)
    refine ⟨db', heq, by simpa [wdb0, movementData] using hmov, ?_⟩
    have := hqty "p1"
    rw [this]
    decide
  · exact claim_C10.2.2 wdb0 "org2" "w1"
      [{ productId := "p1", quantity := 2 }] "u1" "SAT-2026-00001"
      ⟨"w1", "org1"⟩ (by decide) (by decide)

theorem approveSale_orgMismatch {db : DB} {saleId uid org : String}
    {sale : SaleRow} (hl : lockSaleForUpdate db saleId = some sale)
    (hno : sale.organizationId ≠ org) :
    approveSale db saleId uid org =
      .error (.organizationMismatch "Sale" saleId org) := by
  simp only [approveSale, hl]
  rw [if_pos hno]

theorem approveSale_notDraft {db : DB} {saleId uid org : String}
    {sale : SaleRow} (hl : lockSaleForUpdate db saleId = some sale)
    (ho : sale.organizationId = org) (hnd : sale.status ≠ .DRAFT) :
    approveSale db saleId uid org =
      .error (.invalidOrderStatus (saleStatusStr sale.status) "APPROVED") := by
  simp only [approveSale, hl]
  rw [if_neg (by simp [ho]), if_pos hnd]

theorem approveSale_ok_inv {db : DB} {saleId uid org : String} {db' : DB}
    {s' : SaleRow} (h : approveSale db saleId uid org = .ok (db', s')) :
    ∃ sale, lockSaleForUpdate db saleId = some sale ∧
      sale.organizationId = org ∧ sale.status = .DRAFT := by
  simp only [approveSale] at h
  cases hl : lockSaleForUpdate db saleId with
  | none =>
    rw [hl] at h
    exact absurd h (by simp)
  | some sale =>
    rw [hl] at h
    simp only at h
    split at h
    · exact absurd h (by simp)
    next hor =>
      split at h
      · exact absurd h (by simp)
      next hst => exact ⟨sale, rfl, not_not.mp hor, not_not.mp hst⟩

theorem cancelSale_orgMismatch {db : DB} {saleId uid org : String}
    {sale : SaleRow} (hl : lockSaleForUpdate db saleId = some sale)
    (hno : sale.organizationId ≠ org) :
    cancelSale db saleId uid org =
      .error (.organizationMismatch "Sale" saleId org) := by
  simp only [cancelSale, hl]
  rw [if_pos hno]

theorem cancelSale_notApproved {db : DB} {saleId uid org : String}
    {sale : SaleRow} (hl : lockSaleForUpdate db saleId = some sale)
    (ho : sale.organizationId = org) (hna : sale.status ≠ .APPROVED) :
    cancelSale db saleId uid org =
      .error (.invalidOrderStatus (saleStatusStr sale.status) "CANCELLED") := by
  simp only [cancelSale, hl]
  rw [if_neg (by simp [ho]), if_pos hna]

theorem cancelSale_ok_inv {db : DB} {saleId uid org : String} {db' : DB}
    {s' : SaleRow} (h : cancelSale db saleId uid org = .ok (db', s')) :
    ∃ sale, lockSaleForUpdate db saleId = some sale ∧
      sale.organizationId = org ∧ sale.status = .APPROVED := by
  simp only [cancelSale] at h
  cases hl : lockSaleForUpdate db saleId with
  | none =>
    rw [hl] at h
    exact absurd h (by simp)
  | some sale =>
    rw [hl] at h
    simp only at h
    split at h
    · exact absurd h (by simp)
    next hor =>
      split at h
      · exact absurd h (by simp)
      next hst => exact ⟨sale, rfl, not_not.mp hor, not_not.mp hst⟩

theorem approveOrder_notDraft {db : LegacyDB} {orderId uid : String}
    {order : OrderRow} (hl : lockOrderForUpdate db orderId = some order)
    (hnd : order.status ≠ .DRAFT) :
    approveOrder db orderId uid =
      .error (.invalidOrderStatus (orderStatusStr order.status) "APPROVED") := by
  simp only [approveOrder, hl]
  rw [if_pos hnd]

theorem approveOrder_ok_inv {db : LegacyDB} {orderId uid : String}
    {db' : LegacyDB} {o' : OrderRow}
    (h : approveOrder db orderId uid = .ok (db', o')) :
    ∃ order, lockOrderForUpdate db orderId = some order ∧
      order.status = .DRAFT := by
  simp only [approveOrder] at h
  cases hl : lockOrderForUpdate db orderId with
  | none =>
    rw [hl] at h
    exact absurd h (by simp)
  | some order =>
    rw [hl] at h
    simp only at h
    split at h
    · exact absurd h (by simp)
    next hst => exact ⟨order, rfl, not_not.mp hst⟩

theorem cancelOrder_notApproved {db : LegacyDB} {orderId uid : String}
    {order : OrderRow} (hl : lockOrderForUpdate db orderId = some order)
    (hna : order.status ≠ .APPROVED) :
    cancelOrder db orderId uid =
      .error (.invalidOrderStatus (orderStatusStr order.status) "CANCELLED") := by
  simp only [cancelOrder, hl]
  rw [if_pos hna]

theorem cancelOrder_ok_inv {db : LegacyDB} {orderId uid : String}
    {db' : LegacyDB} {o' : OrderRow}
    (h : cancelOrder db orderId uid = .ok (db', o')) :
    ∃ order, lockOrderForUpdate db orderId = some order ∧
      order.status = .APPROVED := by
  simp only [cancelOrder] at h
  cases hl : lockOrderForUpdate db orderId with
  | none =>
    rw [hl] at h
    exact absurd h (by simp)
  | some order =>
    rw [hl] at h
    simp only at h
    split at h
    · exact absurd h (by simp)
    next hst => exact ⟨order, rfl, not_not.mp hst⟩

/-- C3: for both the Sale and the Order state machine, approve succeeds only
from DRAFT and otherwise fails with the invalid-status-transition error
carrying (current, APPROVED) while the transaction rolls back unchanged;
cancel succeeds only from APPROVED and otherwise fails with
(current, CANCELLED); in particular CANCELLED admits no outgoing transition
and APPROVED cannot return to DRAFT.  For sales the statement is taken
after the tenant check, which precedes the status check. -/
theorem claim_C3 :
    (∀ (db : DB) (saleId uid org : String) (sale : SaleRow),
       lockSaleForUpdate db saleId = some sale →
       sale.organizationId = org →
       ((sale.status ≠ .DRAFT →
           approveSale db saleId uid org =
             .error (.invalidOrderStatus (saleStatusStr sale.status)
               "APPROVED") ∧
           applyTx (approveSale db saleId uid org) db = db) ∧
        (∀ (db' : DB) (s' : SaleRow),
           approveSale db saleId uid org = .ok (db', s') →
           sale.status = .DRAFT) ∧
        (sale.status ≠ .APPROVED →
           cancelSale db saleId uid org =
             .error (.invalidOrderStatus (saleStatusStr sale.status)
               "CANCELLED") ∧
           applyTx (cancelSale db saleId uid org) db = db) ∧
        (∀ (db' : DB) (s' : SaleRow),
           cancelSale db saleId uid org = .ok (db', s') →
           sale.status = .APPROVED))) ∧
    (∀ (db : LegacyDB) (orderId uid : String) (order : OrderRow),
       lockOrderForUpdate db orderId = some order →
       ((order.status ≠ .DRAFT →
           approveOrder db orderId uid =
             .error (.invalidOrderStatus (orderStatusStr order.status)
               "APPROVED") ∧
           applyTxL (approveOrder db orderId uid) db = db) ∧
        (∀ (db' : LegacyDB) (o' : OrderRow),
           approveOrder db orderId uid = .ok (db', o') →
           order.status = .DRAFT) ∧
        (order.status ≠ .APPROVED →
           cancelOrder db orderId uid =
             .error (.invalidOrderStatus (orderStatusStr order.status)
               "CANCELLED") ∧
           applyTxL (cancelOrder db orderId uid) db = db) ∧
        (∀ (db' : LegacyDB) (o' : OrderRow),
           cancelOrder db orderId uid = .ok (db', o') →
           order.status = .APPROVED))) := by
  constructor
  · intro db saleId uid org sale hl ho
    refine ⟨?_, ?_, ?_, ?_⟩
    · intro hnd
      have herr := @approveSale_notDraft _ _ uid _ _ hl ho hnd
      exact ⟨herr, by simp [applyTx, herr]⟩
    · intro db' s' h
      obtain ⟨sale', hl', -, hst⟩ := approveSale_ok_inv h
      rw [hl] at hl'
      obtain rfl : sale = sale' := by injection hl'
      exact hst
    · intro hna
      have herr := @cancelSale_notApproved _ _ uid _ _ hl ho hna
      exact ⟨herr, by simp [applyTx, herr]⟩
    · intro db' s' h
      obtain ⟨sale', hl', -, hst⟩ := cancelSale_ok_inv h
      rw [hl] at hl'
      obtain rfl : sale = sale' := by injection hl'
      exact hst
  · intro db orderId uid order hl
    refine ⟨?_, ?_, ?_, ?_⟩
    · intro hnd
      have herr := @approveOrder_notDraft _ _ uid _ hl hnd
      exact ⟨herr, by simp [applyTxL, herr]⟩
    · intro db' o' h
      obtain ⟨order', hl', hst⟩ := approveOrder_ok_inv h
      rw [hl] at hl'
      obtain rfl : order = order' := by injection hl'
      exact hst
    · intro hna
      have herr := @cancelOrder_notApproved _ _ uid _ hl hna
      exact ⟨herr, by simp [applyTxL, herr]⟩
    · intro db' o' h
      obtain ⟨order', hl', hst⟩ := cancelOrder_ok_inv h
      rw [hl] at hl'
      obtain rfl : order = order' := by injection hl'
      exact hst

/-- Concrete sale database for witnesses: one CANCELLED sale. -/
def sdb0 : DB :=
  { products := [], warehouses := [], stocks := [], movements := [],
    sales := [{ id := "sl1", organizationId := "org1", warehouseId := "w1",
                saleNumber := "SAT-2026-00001", status := .CANCELLED,
                approvedAt := true, cancelledAt := true }],
    saleItems := [], outbox := [], log := [], now := 0 }

theorem claim_C3_witness :
    (lockSaleForUpdate sdb0 "sl1" = some
       { id := "sl1", organizationId := "org1", warehouseId := "w1",
         saleNumber := "SAT-2026-00001", status := .CANCELLED,
         approvedAt := true, cancelledAt := true } ∧
     SaleStatus.CANCELLED ≠ SaleStatus.DRAFT ∧
     SaleStatus.CANCELLED ≠ SaleStatus.APPROVED) ∧
    (approveSale sdb0 "sl1" "u1" "org1" =
       .error (.invalidOrderStatus "CANCELLED" "APPROVED")) ∧
    (cancelSale sdb0 "sl1" "u1" "org1" =
       .error (.invalidOrderStatus "CANCELLED" "CANCELLED")) := by
  refine ⟨⟨by decide, by decide, by decide⟩, ?_, ?_⟩
  · exact ((claim_C3.1 sdb0 "sl1" "u1" "org1"
      ⟨"sl1", "org1", "w1", "SAT-2026-00001", .CANCELLED, true, true⟩
      (by decide) (by decide)).1 (by decide)).1
  · exact ((claim_C3.1 sdb0 "sl1" "u1" "org1"
      ⟨"sl1", "org1", "w1", "SAT-2026-00001", .CANCELLED, true, true⟩
      (by decide) (by decide)).2.2.1 (by decide)).1

/-- An error that is not a cross-tenant rejection. -/
def notOrgMismatch (e : ServiceError) : Prop :=
  ∀ a b c, e ≠ .organizationMismatch a b c

theorem reserveOrderOne_notOrgMismatch {db : LegacyDB} {item : StockItem}
    {uid onum : String} {e : ServiceError}
    (h : reserveOrderOne db item uid onum = .error e) : notOrgMismatch e := by
  simp only [reserveOrderOne] at h
  cases hl : lockProductForUpdate db item.productId with
  | none =>
    rw [hl] at h
    injection h with h'
    subst h'
    intro a b c
    simp
  | some product =>
    rw [hl] at h
    simp only at h
    split at h
    · injection h with h'
      subst h'
      intro a b c
      simp
    · simp only [productUpdateStock] at h
      cases hrep : replaceFirstProduct db.products item.productId
          (fun q => q - item.quantity) with
      | none =>
        rw [hrep, exc_bind_err] at h
        injection h with h'
        subst h'
        intro a b c
        simp
      | some l' =>
        rw [hrep, exc_bind_ok] at h
        exact absurd h (by simp)

theorem reserveStockForOrder_notOrgMismatch {uid onum : String} :
    ∀ (items : List StockItem) (db : LegacyDB) (e : ServiceError),
      reserveStockForOrder db items uid onum = .error e →
      notOrgMismatch e := by
  intro items
  induction items with
  | nil =>
    intro db e h
    simp only [reserveStockForOrder] at h
    exact absurd h (by simp)
  | cons item rest ih =>
    intro db e h
    simp only [reserveStockForOrder] at h
    cases hr : reserveOrderOne db item uid onum with
    | error e' =>
      rw [hr, exc_bind_err] at h
      injection h with h'
      exact h' ▸ reserveOrderOne_notOrgMismatch hr
    | ok db₁ =>
      rw [hr, exc_bind_ok] at h
      exact ih db₁ e h

theorem returnStockForCancel_notOrgMismatch {uid onum : String} :
    ∀ (items : List StockItem) (db : LegacyDB) (e : ServiceError),
      returnStockForCancel db items uid onum = .error e →
      notOrgMismatch e := by
  intro items
  induction items with
  | nil =>
    intro db e h
    simp only [returnStockForCancel] at h
    exact absurd h (by simp)
  | cons item rest ih =>
    intro db e h
    simp only [returnStockForCancel] at h
    simp only [productUpdateStock] at h
    cases hrep : replaceFirstProduct db.products item.productId
        (fun q => q + item.quantity) with
    | none =>
      rw [hrep, exc_bind_err] at h
      injection h with h'
      subst h'
      intro a b c
      simp
    | some l' =>
      rw [hrep, exc_bind_ok] at h
      exact ih _ e h

theorem approveOrder_notOrgMismatch {db : LegacyDB} {orderId uid : String}
    {e : ServiceError} (h : approveOrder db orderId uid = .error e) :
    notOrgMismatch e := by
  simp only [approveOrder] at h
  cases hl : lockOrderForUpdate db orderId with
  | none =>
    rw [hl] at h
    injection h with h'
    subst h'
    intro a b c
    simp
  | some order =>
    rw [hl] at h
    simp only at h
    split at h
    · injection h with h'
      subst h'
      intro a b c
      simp
    · cases hr : reserveStockForOrder db
          ((db.orderItems.filter (fun i => i.orderId == orderId)).map
            (fun i => { productId := i.productId, quantity := i.quantity }))
          uid order.orderNumber with
      | error e' =>
        rw [hr, exc_bind_err] at h
        injection h with h'
        exact h' ▸ reserveStockForOrder_notOrgMismatch _ _ _ hr
      | ok db₁ =>
        rw [hr, exc_bind_ok] at h
        split at h
        · exact absurd h (by simp)
        · injection h with h'
          subst h'
          intro a b c
          simp

theorem cancelOrder_notOrgMismatch {db : LegacyDB} {orderId uid : String}
    {e : ServiceError} (h : cancelOrder db orderId uid = .error e) :
    notOrgMismatch e := by
  simp only [cancelOrder] at h
  cases hl : lockOrderForUpdate db orderId with
  | none =>
    rw [hl] at h
    injection h with h'
    subst h'
    intro a b c
    simp
  | some order =>
    rw [hl] at h
    simp only at h
    split at h
    · injection h with h'
      subst h'
      intro a b c
      simp
    · cases hr : returnStockForCancel db
          ((db.orderItems.filter (fun i => i.orderId == orderId)).map
            (fun i => { productId := i.productId, quantity := i.quantity }))
          uid order.orderNumber with
      | error e' =>
        rw [hr, exc_bind_err] at h
        injection h with h'
        exact h' ▸ returnStockForCancel_notOrgMismatch _ _ _ hr
      | ok db₁ =>
        rw [hr, exc_bind_ok] at h
        split at h
        · exact absurd h (by simp)
        · injection h with h'
          subst h'
          intro a b c
          simp

/-- Legacy order database for the C4 counterexample: one DRAFT order with no
items, created by a user of organization A; the caller will be from
organization B, yet no tenant check can reject the call because the orders
table carries no organization column. -/
def ldb0 : LegacyDB :=
  { orders := [{ id := "o1", orderNumber := "SIP-2026-00001", status := .DRAFT,
                 totalAmount := 0, createdById := "user-orgA",
                 approvedAt := false, cancelledAt := false }],
    orderItems := [], products := [], movements := [], invoices := [],
    outbox := [], year := 2026 }

/-- C4 as stated is false for the Order state machine: approveOrder accepts
no organization argument and the orders table has no organization column,
so a caller from a foreign organization approves the order successfully and
no OrganizationMismatch is ever raised.  The run below is a cross-tenant
approve call that succeeds and mutates the order to APPROVED. -/
theorem claim_C4_counterexample :
    approveOrder ldb0 "o1" "intruder-from-orgB" =
      .ok (applyTxL (approveOrder ldb0 "o1" "intruder-from-orgB") ldb0,
        { id := "o1", orderNumber := "SIP-2026-00001", status := .APPROVED,
          totalAmount := 0, createdById := "user-orgA", approvedAt := true,
          cancelledAt := false }) := by
  rfl

/-- C4 amended: the Sale state machine checks, after acquiring the row lock
and before the status check or any mutation, that the sale belongs to the
caller organization, failing with OrganizationMismatch and rolling back
otherwise — for both approve and cancel; the Order state machine makes no
such check: approveOrder and cancelOrder can never fail with
OrganizationMismatch. -/
theorem claim_C4 :
    (∀ (db : DB) (saleId uid org : String) (sale : SaleRow),
       lockSaleForUpdate db saleId = some sale →
       sale.organizationId ≠ org →
       (approveSale db saleId uid org =
          .error (.organizationMismatch "Sale" saleId org) ∧
        applyTx (approveSale db saleId uid org) db = db ∧
        cancelSale db saleId uid org =
          .error (.organizationMismatch "Sale" saleId org) ∧
        applyTx (cancelSale db saleId uid org) db = db)) ∧
    (∀ (db : LegacyDB) (orderId uid : String) (e : ServiceError),
       approveOrder db orderId uid = .error e →
       ∀ a b c, e ≠ .organizationMismatch a b c) ∧
    (∀ (db : LegacyDB) (orderId uid : String) (e : ServiceError),
       cancelOrder db orderId uid = .error e →
       ∀ a b c, e ≠ .organizationMismatch a b c) := by
  refine ⟨?_, ?_, ?_⟩
  · intro db saleId uid org sale hl hno
    have h1 := @approveSale_orgMismatch _ _ uid _ _ hl hno
    have h2 := @cancelSale_orgMismatch _ _ uid _ _ hl hno
    exact ⟨h1, by simp [applyTx, h1], h2, by simp [applyTx, h2]⟩
  · intro db orderId uid e h
    exact approveOrder_notOrgMismatch h
  · intro db orderId uid e h
    exact cancelOrder_notOrgMismatch h

theorem claim_C4_witness :
    (lockSaleForUpdate sdb0 "sl1" = some
       { id := "sl1", organizationId := "org1", warehouseId := "w1",
         saleNumber := "SAT-2026-00001", status := .CANCELLED,
         approvedAt := true, cancelledAt := true } ∧
     "org1" ≠ "org2") ∧
    (approveSale sdb0 "sl1" "u1" "org2" =
       .error (.organizationMismatch "Sale" "sl1" "org2") ∧
     applyTx (approveSale sdb0 "sl1" "u1" "org2") sdb0 = sdb0) := by
  refine ⟨⟨by decide, by decide⟩, ?_⟩
  have := claim_C4.1 sdb0 "sl1" "u1" "org2"
    ⟨"sl1", "org1", "w1", "SAT-2026-00001", .CANCELLED, true, true⟩
    (by decide) (by decide)
  exact ⟨this.1, this.2.1⟩

theorem stringDataEq {a b : String} (h : a.data = b.data) : a = b := by
  cases a
  cases b
  exact congrArg String.mk h

theorem charListLt_irrefl : ∀ l : List Char, charListLt l l = false := by
  intro l
  induction l with
  | nil => rfl
  | cons a as ih => simp [charListLt, ih]

theorem charListLt_trans : ∀ a b c : List Char, charListLt a b = true →
    charListLt b c = true → charListLt a c = true := by
  intro a
  induction a with
  | nil =>
    intro b c hab hbc
    cases b with
    | nil => simp [charListLt] at hab
    | cons y ys =>
      cases c with
      | nil => simp [charListLt] at hbc
      | cons z zs => simp [charListLt]
  | cons x xs ih =>
    intro b c hab hbc
    cases b with
    | nil => simp [charListLt] at hab
    | cons y ys =>
      cases c with
      | nil => simp [charListLt] at hbc
      | cons z zs =>
        simp only [charListLt, Bool.or_eq_true, Bool.and_eq_true,
          beq_iff_eq, decide_eq_true_eq] at hab hbc ⊢
        rcases hab with h1 | ⟨rfl, h1⟩
        · rcases hbc with h2 | ⟨rfl, h2⟩
          · exact Or.inl (Nat.lt_trans h1 h2)
          · exact Or.inl h1
        · rcases hbc with h2 | ⟨rfl, h2⟩
          · exact Or.inl h2
          · exact Or.inr ⟨rfl, ih ys zs h1 h2⟩

theorem charListLt_conn : ∀ a b : List Char, charListLt a b = false →
    charListLt b a = false → a = b := by
  intro a
  induction a with
  | nil =>
    intro b hab _
    cases b with
    | nil => rfl
    | cons y ys => simp [charListLt] at hab
  | cons x xs ih =>
    intro b hab hba
    cases b with
    | nil => simp [charListLt] at hba
    | cons y ys =>
      simp only [charListLt, Bool.or_eq_false_iff, Bool.and_eq_false_iff,
        beq_eq_false_iff_ne, ne_eq, decide_eq_false_iff_not] at hab hba
      have hxy : x = y := by
        have h1 := hab.1
        have h2 := hba.1
        have h1' : ¬ x.val.toNat < y.val.toNat := h1
        have h2' : ¬ y.val.toNat < x.val.toNat := h2
        exact Char.ext (UInt32.ext (by omega))
      subst hxy
      rcases hab.2 with h | h
      · exact absurd rfl h
      · rcases hba.2 with h' | h'
        · exact absurd rfl h'
        · rw [ih ys h h']

theorem strLe_refl (a : String) : strLe a a :=
  charListLt_irrefl a.data

theorem strLe_of_strLt {a b : String} (h : strLt a b = true) : strLe a b := by
  unfold strLe strLt
  unfold strLt at h
  cases hba : charListLt b.data a.data with
  | false => rfl
  | true =>
    have := charListLt_trans _ _ _ h hba
    rw [charListLt_irrefl] at this
    exact absurd this (by simp)

theorem strLe_trans {a b c : String} (h1 : strLe a b) (h2 : strLe b c) :
    strLe a c := by
  unfold strLe strLt at h1 h2 ⊢
  cases hca : charListLt c.data a.data with
  | false => rfl
  | true =>
    cases hbc : charListLt b.data c.data with
    | true =>
      have := charListLt_trans _ _ _ hbc hca
      rw [this] at h1
      exact absurd h1 (by simp)
    | false =>
      have hcb : b.data = c.data := charListLt_conn _ _ hbc h2
      rw [← hcb] at hca
      rw [hca] at h1
      exact absurd h1 (by simp)

theorem strLe_antisymm {a b : String} (h1 : strLe a b) (h2 : strLe b a) :
    a = b :=
  stringDataEq (charListLt_conn a.data b.data h2 h1)

theorem maxString?_go {l : List String} {a : String} :
    ∃ m, l.foldl (fun acc v =>
        match acc with
        | none => some v
        | some m => some (if strLt m v then v else m)) (some a) = some m ∧
      (m = a ∨ m ∈ l) ∧ strLe a m ∧ ∀ x ∈ l, strLe x m := by
  induction l generalizing a with
  | nil => exact ⟨a, rfl, Or.inl rfl, strLe_refl a, by simp⟩
  | cons x xs ih =>
    obtain ⟨m, hm, hmem, hle, hall⟩ := ih (a := if strLt a x then x else a)
    refine ⟨m, hm, ?_, ?_, ?_⟩
    · rcases hmem with h | h
      · cases hax : strLt a x with
        | true =>
          rw [hax] at h
          simp only [if_pos rfl] at h
          exact Or.inr (h ▸ List.mem_cons_self _ _)
        | false =>
          rw [hax] at h
          rw [if_neg (by simp)] at h
          exact Or.inl h
      · exact Or.inr (List.mem_cons_of_mem _ h)
    · refine strLe_trans ?_ hle
      cases hax : strLt a x with
      | true =>
        rw [if_pos rfl]
        exact strLe_of_strLt hax
      | false =>
        rw [if_neg (by simp)]
        exact strLe_refl a
    · intro y hy
      rcases List.mem_cons.mp hy with h | h
      · subst h
        refine strLe_trans ?_ hle
        cases hay : strLt a y with
        | true =>
          rw [if_pos rfl]
          exact strLe_refl y
        | false =>
          rw [if_neg (by simp)]
          exact hay
      · exact hall y h

theorem maxString?_spec {l : List String} {v : String} (hv : v ∈ l)
    (hmax : ∀ u ∈ l, strLe u v) : maxString? l = some v := by
  cases l with
  | nil => simp at hv
  | cons x xs =>
    obtain ⟨m, hm, hmem, hle, hall⟩ := maxString?_go (l := xs) (a := x)
    have hms : maxString? (x :: xs) = some m := by
      simp only [maxString?, List.foldl_cons]
      exact hm
    have hmv : strLe m v := by
      rcases hmem with h | h
      · exact h ▸ hmax x (List.mem_cons_self _ _)
      · exact hmax m (List.mem_cons_of_mem _ h)
    have hvm : strLe v m := by
      rcases List.mem_cons.mp hv with h | h
      · exact h ▸ hle
      · exact hall v h
    rw [hms, strLe_antisymm hmv hvm]

/-- C6: the sequence generator returns prefix-year-00001 when no existing
value matches the year-scoped pattern (hence also on the first call of a
new year), and otherwise appends one plus the parsed trailing numeric
suffix of the lexicographically greatest matching value, zero-padded to
five digits. -/
theorem claim_C6 :
    (∀ (existing : List String) (pre : String) (year : Nat),
       (∀ v ∈ existing,
         ¬ strStartsWith v (pre ++ "-" ++ toString year ++ "-") = true) →
       generateSequentialNumber existing pre year =
         pre ++ "-" ++ toString year ++ "-" ++ "00001") ∧
    (∀ (existing : List String) (pre : String) (year : Nat) (v : String)
       (n : Nat),
       v ∈ existing →
       strStartsWith v (pre ++ "-" ++ toString year ++ "-") = true →
       (∀ u ∈ existing,
         strStartsWith u (pre ++ "-" ++ toString year ++ "-") = true →
         strLe u v) →
       jsParseInt (lastDashPart v) = some n →
       generateSequentialNumber existing pre year =
         pre ++ "-" ++ toString year ++ "-" ++ padStart5 (toString (n + 1))) := by
  constructor
  · intro existing pre year hnone
    have hfil : existing.filter
        (fun v => strStartsWith v (pre ++ "-" ++ toString year ++ "-")) = [] := by
      rw [List.filter_eq_nil_iff]
      intro a ha
      simpa using hnone a ha
    simp only [generateSequentialNumber, hfil]
    rfl
  · intro existing pre year v n hv hstart hmax hparse
    have hvf : v ∈ existing.filter
        (fun u => strStartsWith u (pre ++ "-" ++ toString year ++ "-")) :=
      List.mem_filter.mpr ⟨hv, hstart⟩
    have hallf : ∀ u ∈ existing.filter
        (fun u => strStartsWith u (pre ++ "-" ++ toString year ++ "-")),
        strLe u v := by
      intro u hu
      obtain ⟨hu1, hu2⟩ := List.mem_filter.mp hu
      exact hmax u hu1 hu2
    have hms := maxString?_spec hvf hallf
    simp only [generateSequentialNumber, hms, hparse]
    rfl

/-- Existing document numbers used by the C6 witness. -/
def c6existing : List String :=
  ["SAT-2026-00041", "SAT-2026-00002", "SAT-2025-00099"]

theorem claim_C6_witness :
    (("SAT-2026-00041" : String) ∈ c6existing ∧
     jsParseInt (lastDashPart "SAT-2026-00041") = some 41 ∧
     generateSequentialNumber c6existing "SAT" 2026 =
       "SAT" ++ "-" ++ toString 2026 ++ "-" ++ padStart5 (toString 42)) ∧
    ((∀ v ∈ c6existing,
        ¬ strStartsWith v ("SAT" ++ "-" ++ toString 2027 ++ "-") = true) ∧
     generateSequentialNumber c6existing "SAT" 2027 =
       "SAT" ++ "-" ++ toString 2027 ++ "-" ++ "00001") := by
  refine ⟨⟨by decide, by decide, ?_⟩, by decide, ?_⟩
  · exact claim_C6.2 c6existing "SAT" 2026 "SAT-2026-00041" 41 (by decide)
      (by decide) (by decide) (by decide)
  · exact claim_C6.1 c6existing "SAT" 2027 (by decide)

/-- The ADJUSTMENT movement row adjustStock appends, recording the absolute
delta. -/
def adjMovementRow (db : DB) (par : AdjustStockParams) (s : StockRow) :
    StockMovementRow :=
  { id := "mov" ++ toString db.movements.length,
    organizationId := par.organizationId, productId := par.productId,
    warehouseId := par.warehouseId, type := .ADJUSTMENT,
    referenceType := .MANUAL, quantity := |par.targetQuantity - s.quantity|,
    reference := par.reference,
    note := some (par.note.getD "Sayim duzeltmesi"),
    createdById := par.userId }

/-- The LOW_STOCK outbox row emitted by adjustStock when the target breaches
the threshold. -/
def lowStockRowAdj (db : DB) (par : AdjustStockParams) (sku : String)
    (s : StockRow) : OutboxRow :=
  { id := "evt" ++ toString db.outbox.length, type := .LOW_STOCK,
    payload := .lowStock par.productId par.warehouseId sku
      par.targetQuantity s.minQuantity,
    status := .PENDING, retryCount := 0, maxRetries := 3, error := none,
    idempotencyKey := some ("low_stock:" ++ par.productId ++ ":" ++
      par.warehouseId ++ ":" ++ toString (db.now / 60000)),
    processedAt := false }

theorem adjustStock_ok {db : DB} {par : AdjustStockParams}
    {prod : ProductRow} {wh : WarehouseRow} {s : StockRow}
    (hp : db.products.find? (fun x => x.id == par.productId) = some prod)
    (hpo : prod.organizationId = par.organizationId)
    (hw : db.warehouses.find? (fun x => x.id == par.warehouseId) = some wh)
    (hwo : wh.organizationId = par.organizationId)
    (hs : lockStockForUpdate db par.productId par.warehouseId = some s)
    (ht : 0 ≤ par.targetQuantity)
    (hd : par.targetQuantity - s.quantity ≠ 0) :
    ∃ db', adjustStock db par = .ok (db',
        { movementId := "mov" ++ toString db.movements.length,
          previousQuantity := s.quantity,
          newQuantity := par.targetQuantity,
          productId := par.productId, warehouseId := par.warehouseId }) ∧
      db'.products = db.products ∧ db'.warehouses = db.warehouses ∧
      db'.sales = db.sales ∧ db'.saleItems = db.saleItems ∧
      db'.now = db.now ∧
      db'.movements = db.movements ++ [adjMovementRow db par s] ∧
      db'.log = db.log ++
        [.movementInsert par.productId par.warehouseId,
         .stockWrite par.productId par.warehouseId] ++
        (if 0 < s.minQuantity ∧ par.targetQuantity ≤ s.minQuantity
         then [.outboxInsert] else []) ∧
      db'.outbox = db.outbox ++
        (if 0 < s.minQuantity ∧ par.targetQuantity ≤ s.minQuantity
         then [lowStockRowAdj db par prod.sku s] else []) ∧
      lockStockForUpdate db' par.productId par.warehouseId =
        some { s with quantity := par.targetQuantity } ∧
      (∀ p' w', ¬(p' = par.productId ∧ w' = par.warehouseId) →
        lockStockForUpdate db' p' w' = lockStockForUpdate db p' w') ∧
      (∀ x ∈ db'.stocks, x ∈ db.stocks ∨
        x = { s with quantity := par.targetQuantity }) ∧
      db'.stocks.map (fun t => (t.productId, t.warehouseId)) =
        db.stocks.map (fun t => (t.productId, t.warehouseId)) := by
  have hnlt : ¬(par.targetQuantity < 0) := not_lt.mpr ht
  obtain ⟨db₂, hupd, hprod2, hwh2, hmov2, hsal2, hsi2, hout2, hlog2, hnow2,
      hlock2, hother2, hmem2, hkeys2⟩ :=
    @stockUpdateQuantity_ok
      { db with
        movements := db.movements ++ [adjMovementRow db par s],
        log := db.log ++ [.movementInsert par.productId par.warehouseId] }
      par.productId par.warehouseId _
      (fun _ => par.targetQuantity) hs
  refine ⟨emitLowStockEventIfNeeded db₂ par.productId par.warehouseId prod.sku
    par.targetQuantity s.minQuantity, ?_, ?_⟩
  · simp only [adjustStock, if_neg hnlt,
      validateProductOwnership_ok hp hpo, exc_bind_ok,
      validateWarehouseOwnership_ok hw hwo, hs, movementCreate,
      adjMovementRow]
    rw [if_neg hd]
    simp only [adjMovementRow] at hupd
    rw [hupd]
    rfl
  · by_cases hcond : 0 < s.minQuantity ∧ par.targetQuantity ≤ s.minQuantity
    · have hemit : emitLowStockEventIfNeeded db₂ par.productId par.warehouseId
          prod.sku par.targetQuantity s.minQuantity =
          publishEvent db₂ .LOW_STOCK
            (.lowStock par.productId par.warehouseId prod.sku
              par.targetQuantity s.minQuantity)
            (some ("low_stock:" ++ par.productId ++ ":" ++ par.warehouseId ++
              ":" ++ toString (db₂.now / 60000))) := by
        simp [emitLowStockEventIfNeeded, hcond.1, hcond.2]
      rw [hemit]
      refine ⟨by simp [publishEvent, hprod2], by simp [publishEvent, hwh2],
        by simp [publishEvent, hsal2], by simp [publishEvent, hsi2],
        by simp [publishEvent, hnow2], by simp [publishEvent, hmov2], ?_, ?_,
        ?_, ?_, ?_, ?_⟩
      · simp [publishEvent, hlog2]
        rw [if_pos hcond]
      · simp [publishEvent, hout2, hnow2, lowStockRowAdj]
        rw [if_pos hcond]
      · simpa [publishEvent, lockStockForUpdate] using hlock2
      · intro p' w' hne
        simpa [publishEvent, lockStockForUpdate] using hother2 p' w' hne
      · intro x hx
        simp only [publishEvent] at hx
        exact hmem2 x hx
      · simpa [publishEvent] using hkeys2
    · have hb : ¬((decide (s.minQuantity > 0) &&
          decide (par.targetQuantity ≤ s.minQuantity)) = true) := by
        simpa [and_comm] using fun h1 h2 => hcond ⟨h2, h1⟩
      have hemit : emitLowStockEventIfNeeded db₂ par.productId par.warehouseId
          prod.sku par.targetQuantity s.minQuantity = db₂ := by
        simp only [emitLowStockEventIfNeeded]
        rw [if_neg hb]
      rw [hemit]
      refine ⟨hprod2, hwh2, hsal2, hsi2, hnow2, hmov2, ?_, ?_, hlock2,
        hother2, hmem2, hkeys2⟩
      · rw [if_neg hcond]
        simpa using hlog2
      · rw [if_neg hcond]
        simpa using hout2

theorem adjustStock_noop {db : DB} {par : AdjustStockParams}
    {prod : ProductRow} {wh : WarehouseRow} {s : StockRow}
    (hp : db.products.find? (fun x => x.id == par.productId) = some prod)
    (hpo : prod.organizationId = par.organizationId)
    (hw : db.warehouses.find? (fun x => x.id == par.warehouseId) = some wh)
    (hwo : wh.organizationId = par.organizationId)
    (hs : lockStockForUpdate db par.productId par.warehouseId = some s)
    (ht : 0 ≤ par.targetQuantity)
    (hd : par.targetQuantity - s.quantity = 0) :
    adjustStock db par = .ok (db,
      { movementId := "", previousQuantity := s.quantity,
        newQuantity := s.quantity, productId := par.productId,
        warehouseId := par.warehouseId }) := by
  have hnlt : ¬(par.targetQuantity < 0) := not_lt.mpr ht
  simp only [adjustStock, if_neg hnlt,
    validateProductOwnership_ok hp hpo, exc_bind_ok,
    validateWarehouseOwnership_ok hw hwo, hs]
  rw [if_pos hd]

/-- C7: after a successful decreaseStock, and after a successful non-no-op
adjustStock, a LOW_STOCK outbox event is appended exactly when
minQuantity is positive and the new quantity is at or below it, and that
event carries the minute-bucketed idempotency key
low_stock:productId:warehouseId:floor(now div 60000); a zero-delta
adjustStock writes nothing at all. -/
theorem claim_C7 :
    (∀ (db : DB) (par : StockMutationParams) (prod : ProductRow)
       (wh : WarehouseRow) (s : StockRow),
       db.products.find? (fun x => x.id == par.productId) = some prod →
       prod.organizationId = par.organizationId →
       db.warehouses.find? (fun x => x.id == par.warehouseId) = some wh →
       wh.organizationId = par.organizationId →
       lockStockForUpdate db par.productId par.warehouseId = some s →
       0 < par.quantity → par.quantity ≤ s.quantity →
       ∃ db' r, decreaseStock db par = .ok (db', r) ∧
         ((0 < s.minQuantity ∧ s.quantity - par.quantity ≤ s.minQuantity →
             db'.outbox = db.outbox ++ [lowStockRow db par prod.sku s]) ∧
          (¬(0 < s.minQuantity ∧ s.quantity - par.quantity ≤ s.minQuantity) →
             db'.outbox = db.outbox)) ∧
         (lowStockRow db par prod.sku s).idempotencyKey =
           some ("low_stock:" ++ par.productId ++ ":" ++ par.warehouseId ++
             ":" ++ toString (db.now / 60000)) ∧
         (lowStockRow db par prod.sku s).payload =
           .lowStock par.productId par.warehouseId prod.sku
             (s.quantity - par.quantity) s.minQuantity) ∧
    (∀ (db : DB) (par : AdjustStockParams) (prod : ProductRow)
       (wh : WarehouseRow) (s : StockRow),
       db.products.find? (fun x => x.id == par.productId) = some prod →
       prod.organizationId = par.organizationId →
       db.warehouses.find? (fun x => x.id == par.warehouseId) = some wh →
       wh.organizationId = par.organizationId →
       lockStockForUpdate db par.productId par.warehouseId = some s →
       0 ≤ par.targetQuantity →
       ((par.targetQuantity - s.quantity ≠ 0 →
           ∃ db' r, adjustStock db par = .ok (db', r) ∧
             (0 < s.minQuantity ∧ par.targetQuantity ≤ s.minQuantity →
                db'.outbox = db.outbox ++ [lowStockRowAdj db par prod.sku s]) ∧
             (¬(0 < s.minQuantity ∧ par.targetQuantity ≤ s.minQuantity) →
                db'.outbox = db.outbox) ∧
             (lowStockRowAdj db par prod.sku s).idempotencyKey =
               some ("low_stock:" ++ par.productId ++ ":" ++
                 par.warehouseId ++ ":" ++ toString (db.now / 60000))) ∧
        (par.targetQuantity - s.quantity = 0 →
           adjustStock db par = .ok (db,
             { movementId := "", previousQuantity := s.quantity,
               newQuantity := s.quantity, productId := par.productId,
               warehouseId := par.warehouseId })))) := by
  constructor
  · intro db par prod wh s hp hpo hw hwo hs hq hge
    obtain ⟨db', heq, -, -, -, -, -, -, -, hout, -, -, -, -⟩ :=
      decreaseStock_ok hp hpo hw hwo hs hq hge
    refine ⟨db', _, heq, ⟨?_, ?_⟩, rfl, rfl⟩
    · intro hcond
      rw [hout, if_pos hcond]
    · intro hcond
      rw [hout, if_neg hcond]
      simp
  · intro db par prod wh s hp hpo hw hwo hs ht
    constructor
    · intro hd
      obtain ⟨db', heq, -, -, -, -, -, -, -, hout, -, -, -, -⟩ :=
        adjustStock_ok hp hpo hw hwo hs ht hd
      refine ⟨db', _, heq, ?_, ?_, rfl⟩
      · intro hcond
        rw [hout, if_pos hcond]
      · intro hcond
        rw [hout, if_neg hcond]
        simp
    · intro hd
      exact adjustStock_noop hp hpo hw hwo hs ht hd

/-- Witness database for the C7 scenario: quantity 10, minQuantity 5. -/
def wdb7 : DB :=
  { products := [{ id := "p1", sku := "SKU1", organizationId := "org1" }],
    warehouses := [{ id := "w1", organizationId := "org1" }],
    stocks := [{ id := "s1", organizationId := "org1", productId := "p1",
                 warehouseId := "w1", quantity := 10, minQuantity := 5 }],
    movements := [], sales := [], saleItems := [], outbox := [], log := [],
    now := 0 }

/-- State of the C7 scenario after the first decrement of 3. -/
def wdb7a : DB := applyTx (decreaseStock wdb7 (parD 3)) wdb7

theorem claim_C7_witness :
    (¬(0 < (5 : Int) ∧ 10 - 3 ≤ (5 : Int)) ∧
     wdb7a.outbox = wdb7.outbox) ∧
    ((0 < (5 : Int) ∧ 7 - 3 ≤ (5 : Int)) ∧
     (applyTx (decreaseStock wdb7a (parD 3)) wdb7a).outbox =
       wdb7a.outbox ++
         [lowStockRow wdb7a (parD 3) "SKU1"
           { id := "s1", organizationId := "org1", productId := "p1",
             warehouseId := "w1", quantity := 7, minQuantity := 5 }] ∧
     (lowStockRow wdb7a (parD 3) "SKU1"
         { id := "s1", organizationId := "org1", productId := "p1",
           warehouseId := "w1", quantity := 7, minQuantity := 5 }).payload =
       .lowStock "p1" "w1" "SKU1" 4 5 ∧
     (lowStockRow wdb7a (parD 3) "SKU1"
         { id := "s1", organizationId := "org1", productId := "p1",
           warehouseId := "w1", quantity := 7, minQuantity := 5
       }).idempotencyKey = some "low_stock:p1:w1:0") := by
  refine ⟨⟨by decide, ?_⟩, by decide, ?_, by decide, by decide⟩
  · obtain ⟨db', r, heq, ⟨-, hneg⟩, -, -⟩ := claim_C7.1 wdb7 (parD 3)
      ⟨"p1", "SKU1", "org1"⟩ ⟨"w1", "org1"⟩
      ⟨"s1", "org1", "p1", "w1", 10, 5⟩ (by decide) (by decide) (by decide)
      (by decide) (by decide) (by decide) (by decide)
    rw [show wdb7a = db' from by rw [wdb7a, heq]; rfl]
    exact hneg (by decide)
  · obtain ⟨db', r, heq, ⟨hpos, -⟩, -, -⟩ := claim_C7.1 wdb7a (parD 3)
      ⟨"p1", "SKU1", "org1"⟩ ⟨"w1", "org1"⟩
      ⟨"s1", "org1", "p1", "w1", 7, 5⟩ (by decide) (by decide) (by decide)
      (by decide) (by decide) (by decide) (by decide)
    rw [show applyTx (decreaseStock wdb7a (parD 3)) wdb7a = db' from by
      rw [heq]; rfl]
    exact hpos (by decide)

/-- The invoice row createInvoice inserts. -/
def invRow (db : LegacyDB) (orderId : String) (order : OrderRow)
    (uid : String) : InvoiceRow :=
  { id := "inv" ++ toString db.invoices.length,
    invoiceNumber := generateSequentialNumber
      (db.invoices.map (fun i => i.invoiceNumber)) "FAT" db.year,
    orderId := orderId, totalAmount := order.totalAmount,
    createdById := uid }

theorem createInvoice_ok {db : LegacyDB} {orderId uid : String}
    {order : OrderRow}
    (ho : db.orders.find? (fun o => o.id == orderId) = some order)
    (hst : order.status = .APPROVED)
    (hinv : invoicesFor db orderId = []) :
    createInvoice db orderId uid =
      .ok ({ db with invoices := db.invoices ++ [invRow db orderId order uid] },
        invRow db orderId order uid) := by
  simp only [createInvoice, ho]
  rw [if_neg (by simp [hst]), if_neg (by simp [hinv])]
  rfl

theorem createInvoice_dup {db : LegacyDB} {orderId uid : String}
    {order : OrderRow}
    (ho : db.orders.find? (fun o => o.id == orderId) = some order)
    (hst : order.status = .APPROVED)
    (hinv : (invoicesFor db orderId).length > 0) :
    createInvoice db orderId uid =
      .error (.duplicateInvoice order.orderNumber) := by
  simp only [createInvoice, ho]
  rw [if_neg (by simp [hst]), if_pos hinv]

/-- C8: delivering the same ORDER_APPROVED event twice is idempotent: the
first delivery creates exactly one invoice for the order through
createInvoice; on the second delivery createInvoice raises
DuplicateInvoice, the handler swallows it and returns successfully, and
the state is the state after the first delivery, with still exactly one
invoice. -/
theorem claim_C8 :
    ∀ (db : LegacyDB) (orderId uid : String) (order : OrderRow),
      db.orders.find? (fun o => o.id == orderId) = some order →
      order.status = .APPROVED →
      invoicesFor db orderId = [] →
      ∃ db1 inv, handleOrderApproved db orderId uid = .ok db1 ∧
        invoicesFor db1 orderId = [inv] ∧
        createInvoice db1 orderId uid =
          .error (.duplicateInvoice order.orderNumber) ∧
        handleOrderApproved db1 orderId uid = .ok db1 := by
  intro db orderId uid order ho hst hinv
  have hok := @createInvoice_ok _ _ uid _ ho hst hinv
  have hinv1 : invoicesFor
      ({ db with invoices := db.invoices ++ [invRow db orderId order uid] })
      orderId = [invRow db orderId order uid] := by
    simp only [invoicesFor, List.filter_append]
    rw [show db.invoices.filter (fun i => i.orderId == orderId) = [] from hinv]
    simp [invRow]
  have hdup : createInvoice
      ({ db with invoices := db.invoices ++ [invRow db orderId order uid] })
      orderId uid = .error (.duplicateInvoice order.orderNumber) :=
    @createInvoice_dup _ _ uid _ ho hst (by rw [hinv1]; simp)
  refine ⟨_, invRow db orderId order uid, ?_, hinv1, hdup, ?_⟩
  · simp only [handleOrderApproved, hok]
  · simp only [handleOrderApproved, hdup]

/-- Legacy database for the C8 witness: one APPROVED order, no invoices. -/
def ldb8 : LegacyDB :=
  { orders := [{ id := "o1", orderNumber := "SIP-2026-00007",
                 status := .APPROVED, totalAmount := 250,
                 createdById := "u1", approvedAt := true,
                 cancelledAt := false }],
    orderItems := [], products := [], movements := [], invoices := [],
    outbox := [], year := 2026 }

theorem claim_C8_witness :
    (ldb8.orders.find? (fun o => o.id == "o1") = some
       { id := "o1", orderNumber := "SIP-2026-00007", status := .APPROVED,
         totalAmount := 250, createdById := "u1", approvedAt := true,
         cancelledAt := false } ∧
     invoicesFor ldb8 "o1" = []) ∧
    (∃ db1 inv, handleOrderApproved ldb8 "o1" "worker" = .ok db1 ∧
      invoicesFor db1 "o1" = [inv] ∧
      createInvoice db1 "o1" "worker" =
        .error (.duplicateInvoice "SIP-2026-00007") ∧
      handleOrderApproved db1 "o1" "worker" = .ok db1) := by
  refine ⟨⟨by decide, by decide⟩, ?_⟩
  exact claim_C8 ldb8 "o1" "worker"
    ⟨"o1", "SIP-2026-00007", .APPROVED, 250, "u1", true, false⟩
    (by decide) (by decide) (by decide)

theorem replaceFirstEvent_comp {l : List OutboxRow} {i : String}
    {f g : OutboxRow → OutboxRow} (hf : ∀ x, (f x).id = x.id) :
    replaceFirstEvent (replaceFirstEvent l i f) i g =
      replaceFirstEvent l i (fun x => g (f x)) := by
  induction l with
  | nil => rfl
  | cons x xs ih =>
    simp only [replaceFirstEvent]
    cases hx : (x.id == i) with
    | true =>
      rw [if_pos rfl, if_pos rfl]
      simp only [replaceFirstEvent]
      rw [show ((f x).id == i) = true from by rw [hf x]; exact hx]
      rw [if_pos rfl]
    | false =>
      rw [if_neg (by simp), if_neg (by simp)]
      simp only [replaceFirstEvent, hx]
      rw [if_neg (by simp), ih]

theorem find?_id_of_find?_pending {l : List OutboxRow} {e : OutboxRow}
    (hnd : (l.map (fun x => x.id)).Nodup)
    (hfind : l.find? (fun x => x.status == .PENDING) = some e) :
    l.find? (fun x => x.id == e.id) = some e := by
  induction l with
  | nil => simp at hfind
  | cons x xs ih =>
    simp only [List.find?] at hfind ⊢
    cases hx : (x.status == OutboxStatus.PENDING) with
    | true =>
      rw [hx] at hfind
      have hxe : x = e := by simpa using hfind
      subst hxe
      rw [show (x.id == x.id) = true from by simp]
    | false =>
      rw [hx] at hfind
      simp only [List.map_cons, List.nodup_cons] at hnd
      have hmem : e ∈ xs := List.mem_of_find?_eq_some hfind
      have hne : x.id ≠ e.id := by
        intro hc
        exact hnd.1 (hc ▸ List.mem_map_of_mem (fun y => y.id) hmem)
      rw [show (x.id == e.id) = false from by simpa using hne]
      exact ih hnd.2 hfind

theorem find?_id_replaceFirstEvent {l : List OutboxRow} {i : String}
    {x : OutboxRow} {f : OutboxRow → OutboxRow}
    (hfx : ∀ y, (f y).id = y.id)
    (hfind : l.find? (fun y => y.id == i) = some x) :
    (replaceFirstEvent l i f).find? (fun y => y.id == i) = some (f x) := by
  induction l with
  | nil => simp at hfind
  | cons y ys ih =>
    simp only [List.find?] at hfind
    simp only [replaceFirstEvent]
    cases hy : (y.id == i) with
    | true =>
      rw [hy] at hfind
      have hxy : y = x := by simpa using hfind
      subst hxy
      rw [if_pos rfl]
      simp only [List.find?]
      rw [show ((f y).id == i) = true from by rw [hfx y]; exact hy]
    | false =>
      rw [hy] at hfind
      rw [if_neg (by simp)]
      simp only [List.find?, hy]
      exact ih hfind

/-- C9: the worker claims the oldest PENDING event, first marks it
PROCESSING, then dispatches it; on handler success it ends DONE with a
processed timestamp; on handler failure the retry count is incremented and
the event is dead-lettered as FAILED with the error message when the new
count reaches maxRetries, or reverted to PENDING otherwise. -/
theorem claim_C9 :
    ∀ (handler : OutboxEventType → OutboxPayload → Except String Unit)
      (events : List OutboxRow) (e : OutboxRow),
      (events.map (fun x => x.id)).Nodup →
      events.find? (fun x => x.status == .PENDING) = some e →
      (processNextEvent handler events).2.2 = true ∧
      (handler e.type e.payload = .ok () →
         (processNextEvent handler events).2.1 =
           [.statusWrite e.id .PROCESSING, .statusWrite e.id .DONE] ∧
         (processNextEvent handler events).1.find? (fun x => x.id == e.id) =
           some { e with status := .DONE, processedAt := true }) ∧
      (∀ msg, handler e.type e.payload = .error msg →
         (processNextEvent handler events).2.1 =
           [.statusWrite e.id .PROCESSING,
            .statusWrite e.id
              (if e.maxRetries ≤ e.retryCount + 1 then .FAILED
               else .PENDING)] ∧
         (processNextEvent handler events).1.find? (fun x => x.id == e.id) =
           some { e with
             status := if e.maxRetries ≤ e.retryCount + 1 then .FAILED
               else .PENDING,
             retryCount := e.retryCount + 1, error := some msg,
             processedAt := decide (e.maxRetries ≤ e.retryCount + 1) }) := by
  intro handler events e hnd hfind
  have hid := find?_id_of_find?_pending hnd hfind
  refine ⟨?_, ?_, ?_⟩
  · simp only [processNextEvent, hfind]
    cases hh : handler e.type e.payload <;> rfl
  · intro hh
    constructor
    · simp only [processNextEvent, hfind, hh]
    · simp only [processNextEvent, hfind, hh]
      rw [replaceFirstEvent_comp (by intro x; rfl)]
      exact find?_id_replaceFirstEvent (by intro y; rfl) hid
  · intro msg hh
    constructor
    · simp only [processNextEvent, hfind, hh]
    · simp only [processNextEvent, hfind, hh]
      rw [replaceFirstEvent_comp (by intro x; rfl)]
      exact find?_id_replaceFirstEvent (by intro y; rfl) hid

/-- Outbox queue used by the C9 witness: one DONE event followed by one
PENDING event that has one retry left. -/
def events9 : List OutboxRow :=
  [{ id := "evt0", type := .USER_CREATED,
     payload := .userCreated "u1" "a@b.c" "Ada", status := .DONE,
     retryCount := 0, maxRetries := 3, error := none,
     idempotencyKey := none, processedAt := true },
   { id := "evt1", type := .ORDER_APPROVED,
     payload := .orderApproved "o1" "SIP-2026-00001" "u1",
     status := .PENDING, retryCount := 2, maxRetries := 3, error := none,
     idempotencyKey := some "order:approve:o1", processedAt := false }]

/-- The PENDING event of the C9 witness queue. -/
def evt9 : OutboxRow :=
  { id := "evt1", type := .ORDER_APPROVED,
    payload := .orderApproved "o1" "SIP-2026-00001" "u1",
    status := .PENDING, retryCount := 2, maxRetries := 3, error := none,
    idempotencyKey := some "order:approve:o1", processedAt := false }

theorem claim_C9_witness :
    ((events9.map (fun x => x.id)).Nodup ∧
     events9.find? (fun x => x.status == .PENDING) = some evt9) ∧
    ((processNextEvent (fun _ _ => .ok ()) events9).2.1 =
       [.statusWrite "evt1" .PROCESSING, .statusWrite "evt1" .DONE] ∧
     (processNextEvent (fun _ _ => .ok ()) events9).1.find?
         (fun x => x.id == "evt1") =
       some { evt9 with status := .DONE, processedAt := true }) ∧
    ((processNextEvent (fun _ _ => .error "boom") events9).2.1 =
       [.statusWrite "evt1" .PROCESSING, .statusWrite "evt1" .FAILED] ∧
     (processNextEvent (fun _ _ => .error "boom") events9).1.find?
         (fun x => x.id == "evt1") =
       some { evt9 with
                status := OutboxStatus.FAILED
                retryCount := 3
                error := some "boom"
                processedAt := true }) := by
  refine ⟨⟨by decide, by decide⟩, ?_, ?_⟩
  · have h := (claim_C9 (fun _ _ => .ok ()) events9 evt9 (by decide)
      (by decide)).2.1 rfl
    exact ⟨h.1, h.2⟩
  · have h := ((claim_C9 (fun _ _ => .error "boom") events9 evt9 (by decide)
      (by decide)).2.2) "boom" rfl
    exact ⟨h.1.trans (by rfl), h.2.trans (by rfl)⟩

/-- The IN movement row increaseStock appends. -/
def inMovementRow (db : DB) (par : StockMutationParams) : StockMovementRow :=
  { id := "mov" ++ toString db.movements.length,
    organizationId := par.organizationId, productId := par.productId,
    warehouseId := par.warehouseId, type := .IN,
    referenceType := par.referenceType, quantity := par.quantity,
    reference := par.reference, note := par.note, createdById := par.userId }

/-- The stock row increaseStock creates on first delivery. -/
def newStockRow (db : DB) (par : StockMutationParams) : StockRow :=
  { id := "stk" ++ toString db.stocks.length,
    organizationId := par.organizationId, productId := par.productId,
    warehouseId := par.warehouseId, quantity := par.quantity,
    minQuantity := 0 }

theorem increaseStock_ok_update {db : DB} {par : StockMutationParams}
    {prod : ProductRow} {wh : WarehouseRow} {s : StockRow}
    (hp : db.products.find? (fun x => x.id == par.productId) = some prod)
    (hpo : prod.organizationId = par.organizationId)
    (hw : db.warehouses.find? (fun x => x.id == par.warehouseId) = some wh)
    (hwo : wh.organizationId = par.organizationId)
    (hs : lockStockForUpdate db par.productId par.warehouseId = some s)
    (hq : 0 < par.quantity) :
    ∃ db', increaseStock db par = .ok (db',
        { movementId := "mov" ++ toString db.movements.length,
          previousQuantity := s.quantity,
          newQuantity := s.quantity + par.quantity,
          productId := par.productId, warehouseId := par.warehouseId }) ∧
      db'.products = db.products ∧ db'.warehouses = db.warehouses ∧
      db'.sales = db.sales ∧ db'.saleItems = db.saleItems ∧
      db'.outbox = db.outbox ∧ db'.now = db.now ∧
      db'.movements = db.movements ++ [inMovementRow db par] ∧
      db'.log = db.log ++
        [.movementInsert par.productId par.warehouseId,
         .stockWrite par.productId par.warehouseId] ∧
      lockStockForUpdate db' par.productId par.warehouseId =
        some { s with quantity := s.quantity + par.quantity } ∧
      (∀ p' w', ¬(p' = par.productId ∧ w' = par.warehouseId) →
        lockStockForUpdate db' p' w' = lockStockForUpdate db p' w') ∧
      (∀ x ∈ db'.stocks, x ∈ db.stocks ∨
        x = { s with quantity := s.quantity + par.quantity }) ∧
      db'.stocks.map (fun t => (t.productId, t.warehouseId)) =
        db.stocks.map (fun t => (t.productId, t.warehouseId)) := by
  have hnle : ¬(par.quantity ≤ 0) := not_le.mpr hq
  obtain ⟨db₂, hupd, hprod2, hwh2, hmov2, hsal2, hsi2, hout2, hlog2, hnow2,
      hlock2, hother2, hmem2, hkeys2⟩ :=
    @stockUpdateQuantity_ok
      { db with
        movements := db.movements ++ [inMovementRow db par],
        log := db.log ++ [.movementInsert par.productId par.warehouseId] }
      par.productId par.warehouseId _
      (fun q => q + par.quantity) hs
  refine ⟨db₂, ?_, hprod2, hwh2, hsal2, hsi2, hout2, hnow2,
    by simpa using hmov2, by simpa using hlog2, hlock2, hother2,
    by simpa using hmem2, by simpa using hkeys2⟩
  simp only [increaseStock, if_neg hnle,
    validateProductOwnership_ok hp hpo, exc_bind_ok,
    validateWarehouseOwnership_ok hw hwo, hs, movementCreate, inMovementRow]
  simp only [inMovementRow] at hupd
  rw [hupd]
  rfl

theorem increaseStock_ok_create {db : DB} {par : StockMutationParams}
    {prod : ProductRow} {wh : WarehouseRow}
    (hp : db.products.find? (fun x => x.id == par.productId) = some prod)
    (hpo : prod.organizationId = par.organizationId)
    (hw : db.warehouses.find? (fun x => x.id == par.warehouseId) = some wh)
    (hwo : wh.organizationId = par.organizationId)
    (hs : lockStockForUpdate db par.productId par.warehouseId = none)
    (hq : 0 < par.quantity) :
    ∃ db', increaseStock db par = .ok (db',
        { movementId := "mov" ++ toString db.movements.length,
          previousQuantity := 0, newQuantity := 0 + par.quantity,
          productId := par.productId, warehouseId := par.warehouseId }) ∧
      db'.products = db.products ∧ db'.warehouses = db.warehouses ∧
      db'.sales = db.sales ∧ db'.saleItems = db.saleItems ∧
      db'.outbox = db.outbox ∧ db'.now = db.now ∧
      db'.movements = db.movements ++ [inMovementRow db par] ∧
      db'.log = db.log ++
        [.movementInsert par.productId par.warehouseId,
         .stockWrite par.productId par.warehouseId] ∧
      db'.stocks = db.stocks ++ [newStockRow db par] := by
  have hnle : ¬(par.quantity ≤ 0) := not_le.mpr hq
  refine ⟨{ db with
      stocks := db.stocks ++ [newStockRow db par],
      movements := db.movements ++ [inMovementRow db par],
      log := db.log ++
        [.movementInsert par.productId par.warehouseId,
         .stockWrite par.productId par.warehouseId] },
    ?_, rfl, rfl, rfl, rfl, rfl, rfl, rfl, rfl, rfl⟩
  simp only [increaseStock, if_neg hnle,
    validateProductOwnership_ok hp hpo, exc_bind_ok,
    validateWarehouseOwnership_ok hw hwo, hs, movementCreate, inMovementRow,
    stockCreate, newStockRow]
  simp [List.append_assoc]

theorem increaseStock_ok_inv {db : DB} {par : StockMutationParams} {db' : DB}
    {r : StockMutationResult} (h : increaseStock db par = .ok (db', r)) :
    ∃ prod wh,
      db.products.find? (fun x => x.id == par.productId) = some prod ∧
      prod.organizationId = par.organizationId ∧
      db.warehouses.find? (fun x => x.id == par.warehouseId) = some wh ∧
      wh.organizationId = par.organizationId ∧
      0 < par.quantity := by
  simp only [increaseStock] at h
  split at h
  · exact absurd h (by simp)
  next hq =>
    cases hp : db.products.find? (fun x => x.id == par.productId) with
    | none =>
      rw [show validateProductOwnership db par.productId par.organizationId =
        .error (.notFound "Urun bulunamadi" (some par.productId)) from by
          simp [validateProductOwnership, hp], exc_bind_err] at h
      exact absurd h (by simp)
    | some prod =>
      by_cases hpo : prod.organizationId = par.organizationId
      · rw [validateProductOwnership_ok hp hpo, exc_bind_ok] at h
        cases hw : db.warehouses.find? (fun x => x.id == par.warehouseId) with
        | none =>
          rw [show validateWarehouseOwnership db par.warehouseId
              par.organizationId =
            .error (.notFound "Depo bulunamadi" (some par.warehouseId)) from by
              simp [validateWarehouseOwnership, hw], exc_bind_err] at h
          exact absurd h (by simp)
        | some wh =>
          by_cases hwo : wh.organizationId = par.organizationId
          · exact ⟨prod, wh, rfl, hpo, rfl, hwo, not_le.mp hq⟩
          · rw [show validateWarehouseOwnership db par.warehouseId
                par.organizationId = .error (.organizationMismatch "Warehouse"
                par.warehouseId par.organizationId) from by
                  simp [validateWarehouseOwnership, hw, hwo], exc_bind_err] at h
            exact absurd h (by simp)
      · rw [show validateProductOwnership db par.productId par.organizationId =
          .error (.organizationMismatch "Product" par.productId
            par.organizationId) from by
              simp [validateProductOwnership, hp, hpo], exc_bind_err] at h
        exact absurd h (by simp)

theorem adjustStock_ok_inv {db : DB} {par : AdjustStockParams} {db' : DB}
    {r : StockMutationResult} (h : adjustStock db par = .ok (db', r)) :
    ∃ prod wh s,
      db.products.find? (fun x => x.id == par.productId) = some prod ∧
      prod.organizationId = par.organizationId ∧
      db.warehouses.find? (fun x => x.id == par.warehouseId) = some wh ∧
      wh.organizationId = par.organizationId ∧
      lockStockForUpdate db par.productId par.warehouseId = some s ∧
      0 ≤ par.targetQuantity := by
  simp only [adjustStock] at h
  split at h
  · exact absurd h (by simp)
  next ht =>
    cases hp : db.products.find? (fun x => x.id == par.productId) with
    | none =>
      rw [show validateProductOwnership db par.productId par.organizationId =
        .error (.notFound "Urun bulunamadi" (some par.productId)) from by
          simp [validateProductOwnership, hp], exc_bind_err] at h
      exact absurd h (by simp)
    | some prod =>
      by_cases hpo : prod.organizationId = par.organizationId
      · rw [validateProductOwnership_ok hp hpo, exc_bind_ok] at h
        cases hw : db.warehouses.find? (fun x => x.id == par.warehouseId) with
        | none =>
          rw [show validateWarehouseOwnership db par.warehouseId
              par.organizationId =
            .error (.notFound "Depo bulunamadi" (some par.warehouseId)) from by
              simp [validateWarehouseOwnership, hw], exc_bind_err] at h
          exact absurd h (by simp)
        | some wh =>
          by_cases hwo : wh.organizationId = par.organizationId
          · rw [validateWarehouseOwnership_ok hw hwo, exc_bind_ok] at h
            cases hs : lockStockForUpdate db par.productId par.warehouseId with
            | none =>
              rw [hs] at h
              exact absurd h (by simp)
            | some s =>
              exact ⟨prod, wh, s, rfl, hpo, rfl, hwo, rfl, not_lt.mp ht⟩
          · rw [show validateWarehouseOwnership db par.warehouseId
                par.organizationId = .error (.organizationMismatch "Warehouse"
                par.warehouseId par.organizationId) from by
                  simp [validateWarehouseOwnership, hw, hwo], exc_bind_err] at h
            exact absurd h (by simp)
      · rw [show validateProductOwnership db par.productId par.organizationId =
          .error (.organizationMismatch "Product" par.productId
            par.organizationId) from by
              simp [validateProductOwnership, hp, hpo], exc_bind_err] at h
        exact absurd h (by simp)

theorem returnOne_ok_inv {db : DB} {org wid : String} {item : StockItem}
    {uid ref : String} {db' : DB}
    (h : returnOne db org wid item uid ref = .ok db') :
    ∃ s, lockStockForUpdate db item.productId wid = some s := by
  simp only [returnOne, movementCreate, stockUpdateQuantity] at h
  cases hrep : replaceFirstStock
      ({ db with
         movements := db.movements ++
           [{ id := "mov" ++ toString db.movements.length,
              organizationId := org, productId := item.productId,
              warehouseId := wid, type := .IN, referenceType := .SALE,
              quantity := item.quantity, reference := some ref,
              note := some "Iptal - stok iade", createdById := uid }],
         log := db.log ++ [.movementInsert item.productId wid] } : DB).stocks
      item.productId wid (fun q => q + item.quantity) with
  | none =>
    rw [hrep] at h
    exact absurd h (by simp)
  | some l' =>
    cases hs : lockStockForUpdate db item.productId wid with
    | some s => exact ⟨s, rfl⟩
    | none =>
      exfalso
      have : replaceFirstStock db.stocks item.productId wid
          (fun q => q + item.quantity) = none :=
        replaceFirstStock_eq_none hs
      rw [show ({ db with
         movements := db.movements ++
           [{ id := "mov" ++ toString db.movements.length,
              organizationId := org, productId := item.productId,
              warehouseId := wid, type := .IN, referenceType := .SALE,
              quantity := item.quantity, reference := some ref,
              note := some "Iptal - stok iade", createdById := uid }],
         log := db.log ++ [.movementInsert item.productId wid] } : DB).stocks =
        db.stocks from rfl, this] at hrep
      exact absurd hrep (by simp)

/-- Checks that, in an ordered write log, every write of a stock balance for
a pair was preceded, within the same log, by a movement insert for the same
pair; seen accumulates the pairs whose movement row is already written. -/
def auditBeforeBalance : List WriteAction → List (String × String) → Bool
  | [], _ => true
  | .stockWrite p w :: rest, seen =>
    seen.contains (p, w) && auditBeforeBalance rest seen
  | .movementInsert p w :: rest, seen =>
    auditBeforeBalance rest ((p, w) :: seen)
  | .outboxInsert :: rest, seen => auditBeforeBalance rest seen
  | .saleWrite _ :: rest, seen => auditBeforeBalance rest seen

/-- The movement-insert pairs a log adds to the seen accumulator. -/
def seenAfter : List WriteAction → List (String × String) → List (String × String)
  | [], seen => seen
  | .movementInsert p w :: rest, seen => seenAfter rest ((p, w) :: seen)
  | _ :: rest, seen => seenAfter rest seen

theorem auditBeforeBalance_append :
    ∀ (l1 l2 : List WriteAction) (seen : List (String × String)),
      auditBeforeBalance (l1 ++ l2) seen =
        (auditBeforeBalance l1 seen &&
         auditBeforeBalance l2 (seenAfter l1 seen)) := by
  intro l1
  induction l1 with
  | nil => intro l2 seen; simp [auditBeforeBalance, seenAfter]
  | cons a rest ih =>
    intro l2 seen
    cases a with
    | movementInsert p w =>
      simp only [List.cons_append, auditBeforeBalance, seenAfter]
      exact ih l2 _
    | stockWrite p w =>
      simp only [List.cons_append, auditBeforeBalance, seenAfter]
      rw [show rest.append l2 = rest ++ l2 from rfl, ih l2 seen,
        Bool.and_assoc]
    | outboxInsert =>
      simp only [List.cons_append, auditBeforeBalance, seenAfter]
      exact ih l2 seen
    | saleWrite i =>
      simp only [List.cons_append, auditBeforeBalance, seenAfter]
      exact ih l2 seen

theorem auditBeforeBalance_pair (p w : String)
    (seen : List (String × String)) :
    auditBeforeBalance
      [.movementInsert p w, .stockWrite p w] seen = true := by
  simp [auditBeforeBalance, List.contains]

theorem auditBeforeBalance_pair_outbox (p w : String)
    (seen : List (String × String)) :
    auditBeforeBalance
      [.movementInsert p w, .stockWrite p w, .outboxInsert] seen = true := by
  simp [auditBeforeBalance, List.contains]

theorem reserveItems_audit {org wid uid ref : String} :
    ∀ (items : List StockItem) (db db' : DB)
      (seen : List (String × String)),
      auditBeforeBalance db.log seen = true →
      reserveItems db org wid items uid ref = .ok db' →
      auditBeforeBalance db'.log seen = true := by
  intro items
  induction items with
  | nil =>
    intro db db' seen hab h
    simp only [reserveItems] at h
    obtain rfl : db = db' := by injection h
    exact hab
  | cons item rest ih =>
    intro db db' seen hab h
    simp only [reserveItems] at h
    cases hr : reserveOne db org wid item uid ref with
    | error e =>
      rw [hr, exc_bind_err] at h
      exact absurd h (by simp)
    | ok db₁ =>
      rw [hr, exc_bind_ok] at h
      obtain ⟨prod, s, hp, hpo, hs, hge⟩ := reserveOne_ok_inv hr
      obtain ⟨db₁', heq, -, -, -, -, -, -, -, hlog, -, -, -, -⟩ :=
        @reserveOne_ok _ _ _ _ uid ref _ _ hp hpo hs hge
      rw [hr] at heq
      obtain rfl : db₁ = db₁' := by injection heq
      refine ih db₁ db' seen ?_ h
      rw [hlog, auditBeforeBalance_append, hab,
        auditBeforeBalance_pair]
      rfl

theorem returnStock_audit {org wid uid ref : String} :
    ∀ (items : List StockItem) (db db' : DB)
      (seen : List (String × String)),
      auditBeforeBalance db.log seen = true →
      returnStock db org wid items uid ref = .ok db' →
      auditBeforeBalance db'.log seen = true := by
  intro items
  induction items with
  | nil =>
    intro db db' seen hab h
    simp only [returnStock] at h
    obtain rfl : db = db' := by injection h
    exact hab
  | cons item rest ih =>
    intro db db' seen hab h
    simp only [returnStock] at h
    cases hr : returnOne db org wid item uid ref with
    | error e =>
      rw [hr, exc_bind_err] at h
      exact absurd h (by simp)
    | ok db₁ =>
      rw [hr, exc_bind_ok] at h
      obtain ⟨s, hs⟩ := returnOne_ok_inv hr
      obtain ⟨db₁', heq, -, -, -, -, -, -, -, hlog, -, -, -, -⟩ :=
        @returnOne_ok _ org _ _ uid ref _ hs
      rw [hr] at heq
      obtain rfl : db₁ = db₁' := by injection heq
      refine ih db₁ db' seen ?_ h
      rw [hlog, auditBeforeBalance_append, hab,
        auditBeforeBalance_pair]
      rfl

/-- C5 as stated is false for the addStock entry point (and its removeStock
sibling): addStock updates or creates the denormalized balance FIRST and
only then writes the movement row, so the audit-before-balance ordering is
violated on a successful run. -/
theorem claim_C5_counterexample :
    (addStock wdb0 "org1" "p1" "w1" 4 "u1" none).isOk = true ∧
    (applyTx (addStock wdb0 "org1" "p1" "w1" 4 "u1" none) wdb0).log =
      [.stockWrite "p1" "w1", .movementInsert "p1" "w1"] ∧
    auditBeforeBalance
      (applyTx (addStock wdb0 "org1" "p1" "w1" 4 "u1" none) wdb0).log [] =
      false := by
  refine ⟨rfl, rfl, rfl⟩

/-- C5 amended: within one transaction the Phase 7B operations
increaseStock, decreaseStock, adjustStock, reserveStock and returnStock
write every StockMovement audit row strictly before the balance write for
the same pair; the addStock and removeStock entry points do the opposite
(see the counterexample). -/
theorem claim_C5 :
    (∀ (db : DB) (par : StockMutationParams) (db' : DB)
       (r : StockMutationResult), db.log = [] →
       increaseStock db par = .ok (db', r) →
       auditBeforeBalance db'.log [] = true) ∧
    (∀ (db : DB) (par : StockMutationParams) (db' : DB)
       (r : StockMutationResult), db.log = [] →
       decreaseStock db par = .ok (db', r) →
       auditBeforeBalance db'.log [] = true) ∧
    (∀ (db : DB) (par : AdjustStockParams) (db' : DB)
       (r : StockMutationResult), db.log = [] →
       adjustStock db par = .ok (db', r) →
       auditBeforeBalance db'.log [] = true) ∧
    (∀ (db : DB) (org wid : String) (items : List StockItem)
       (uid ref : String) (db' : DB), db.log = [] →
       reserveStock db org wid items uid ref = .ok db' →
       auditBeforeBalance db'.log [] = true) ∧
    (∀ (db : DB) (org wid : String) (items : List StockItem)
       (uid ref : String) (db' : DB), db.log = [] →
       returnStock db org wid items uid ref = .ok db' →
       auditBeforeBalance db'.log [] = true) := by
  refine ⟨?_, ?_, ?_, ?_, ?_⟩
  · intro db par db' r hlog0 h
    obtain ⟨prod, wh, hp, hpo, hw, hwo, hq⟩ := increaseStock_ok_inv h
    cases hs : lockStockForUpdate db par.productId par.warehouseId with
    | some s =>
      obtain ⟨db'', heq, -, -, -, -, -, -, -, hlog, -, -, -, -⟩ :=
        increaseStock_ok_update hp hpo hw hwo hs hq
      rw [h] at heq
      obtain rfl : db' = db'' := by
        injection heq with heq'
        exact congrArg Prod.fst heq'
      rw [hlog, hlog0]
      exact auditBeforeBalance_pair _ _ _
    | none =>
      obtain ⟨db'', heq, -, -, -, -, -, -, -, hlog, -⟩ :=
        increaseStock_ok_create hp hpo hw hwo hs hq
      rw [h] at heq
      obtain rfl : db' = db'' := by
        injection heq with heq'
        exact congrArg Prod.fst heq'
      rw [hlog, hlog0]
      exact auditBeforeBalance_pair _ _ _
  · intro db par db' r hlog0 h
    obtain ⟨prod, wh, s, hp, hpo, hw, hwo, hs, hq, hge⟩ :=
      decreaseStock_ok_inv h
    obtain ⟨db'', heq, -, -, -, -, -, -, hlog, -, -, -, -, -⟩ :=
      decreaseStock_ok hp hpo hw hwo hs hq hge
    rw [h] at heq
    obtain rfl : db' = db'' := by
      injection heq with heq'
      exact congrArg Prod.fst heq'
    rw [hlog, hlog0]
    by_cases hcond : 0 < s.minQuantity ∧ s.quantity - par.quantity ≤
        s.minQuantity
    · rw [if_pos hcond]
      simpa using auditBeforeBalance_pair_outbox par.productId
        par.warehouseId []
    · rw [if_neg hcond]
      simpa using auditBeforeBalance_pair par.productId par.warehouseId []
  · intro db par db' r hlog0 h
    obtain ⟨prod, wh, s, hp, hpo, hw, hwo, hs, ht⟩ := adjustStock_ok_inv h
    by_cases hd : par.targetQuantity - s.quantity = 0
    · have hnoop := adjustStock_noop hp hpo hw hwo hs ht hd
      rw [h] at hnoop
      obtain rfl : db' = db := by
        injection hnoop with heq'
        exact congrArg Prod.fst heq'
      rw [hlog0]
      rfl
    · obtain ⟨db'', heq, -, -, -, -, -, -, hlog, -, -, -, -, -⟩ :=
        adjustStock_ok hp hpo hw hwo hs ht hd
      rw [h] at heq
      obtain rfl : db' = db'' := by
        injection heq with heq'
        exact congrArg Prod.fst heq'
      rw [hlog, hlog0]
      by_cases hcond : 0 < s.minQuantity ∧ par.targetQuantity ≤ s.minQuantity
      · rw [if_pos hcond]
        simpa using auditBeforeBalance_pair_outbox par.productId
          par.warehouseId []
      · rw [if_neg hcond]
        simpa using auditBeforeBalance_pair par.productId par.warehouseId []
  · intro db org wid items uid ref db' hlog0 h
    simp only [reserveStock] at h
    cases hv : validateWarehouseOwnership db wid org with
    | error e =>
      rw [hv, exc_bind_err] at h
      exact absurd h (by simp)
    | ok u =>
      rw [hv, exc_bind_ok] at h
      exact reserveItems_audit items db db' [] (by rw [hlog0]; rfl) h
  · intro db org wid items uid ref db' hlog0 h
    exact returnStock_audit items db db' [] (by rw [hlog0]; rfl) h

theorem claim_C5_witness :
    (wdb0.log = [] ∧
     auditBeforeBalance wdb1.log [] = true) ∧
    (wdb7.log = [] ∧
     auditBeforeBalance wdb7a.log [] = true) := by
  constructor
  · refine ⟨rfl, ?_⟩
    exact claim_C5.2.1 wdb0 (parD 3) wdb1 ⟨"mov0", 5, 2, "p1", "w1"⟩ rfl
      (by rfl)
  · refine ⟨rfl, ?_⟩
    exact claim_C5.2.1 wdb7 (parD 3) wdb7a ⟨"mov0", 10, 7, "p1", "w1"⟩ rfl
      (by rfl)

/-- Signed value of one movement under a chosen sign convention for
ADJUSTMENT rows: IN counts positively, OUT negatively, ADJUSTMENT is
multiplied by adjSign. -/
def movementSignedWith (adjSign : Int) (m : StockMovementRow) : Int :=
  match m.type with
  | .IN => m.quantity
  | .OUT => -m.quantity
  | .ADJUSTMENT => adjSign * m.quantity

/-- Sum of signed movement quantities of one (product, warehouse) pair. -/
def signedSumWith (adjSign : Int) (ms : List StockMovementRow)
    (p w : String) : Int :=
  (ms.map (fun m =>
    if m.productId == p && m.warehouseId == w
    then movementSignedWith adjSign m else 0)).sum

/-- The reconciliation invariant for the IN/OUT fragment of the ledger:
every stock row equals the signed sum of its pair's movements (ADJUSTMENT
rows counting zero), and a pair that has movements but no stock row sums
to zero. -/
def reconciled (db : DB) : Prop :=
  (∀ s ∈ db.stocks,
    s.quantity = signedSumWith 0 db.movements s.productId s.warehouseId) ∧
  (∀ m ∈ db.movements,
    (lockStockForUpdate db m.productId m.warehouseId).isSome = true ∨
    signedSumWith 0 db.movements m.productId m.warehouseId = 0)

/-- The database respects the unique constraint on (productId, warehouseId)
of the stocks table. -/
def stocksKeysNodup (db : DB) : Prop :=
  (db.stocks.map (fun s => (s.productId, s.warehouseId))).Nodup

theorem signedSumWith_append (a : Int) (ms : List StockMovementRow)
    (m : StockMovementRow) (p w : String) :
    signedSumWith a (ms ++ [m]) p w = signedSumWith a ms p w +
      (if m.productId == p && m.warehouseId == w
       then movementSignedWith a m else 0) := by
  simp [signedSumWith]

theorem signedSumWith_ne_zero_mem {ms : List StockMovementRow}
    {p w : String} (h : signedSumWith 0 ms p w ≠ 0) :
    ∃ m ∈ ms, (m.productId == p && m.warehouseId == w) = true := by
  by_contra hc
  push_neg at hc
  apply h
  simp only [signedSumWith]
  rw [List.sum_eq_zero]
  intro x hx
  obtain ⟨m, hm, rfl⟩ := List.mem_map.mp hx
  rw [if_neg (by simpa using hc m hm)]

theorem reconciled_update_step {db db' : DB} {p w : String}
    {m : StockMovementRow} {s : StockRow} {d : Int}
    (hnd : stocksKeysNodup db) (hrec : reconciled db)
    (hs : lockStockForUpdate db p w = some s)
    (hmp : m.productId = p) (hmw : m.warehouseId = w)
    (hmd : movementSignedWith 0 m = d)
    (hmov : db'.movements = db.movements ++ [m])
    (hlock : lockStockForUpdate db' p w =
      some { s with quantity := s.quantity + d })
    (hother : ∀ p' w', ¬(p' = p ∧ w' = w) →
      lockStockForUpdate db' p' w' = lockStockForUpdate db p' w')
    (hmem : ∀ x ∈ db'.stocks, x ∈ db.stocks ∨
      x = { s with quantity := s.quantity + d })
    (hkeys : db'.stocks.map (fun t => (t.productId, t.warehouseId)) =
      db.stocks.map (fun t => (t.productId, t.warehouseId))) :
    reconciled db' ∧ stocksKeysNodup db' := by
  have hsf := find?_stockKey_fields
    (show db.stocks.find? (stockKey p w) = some s from hs)
  have hnd' : stocksKeysNodup db' := by
    rw [stocksKeysNodup, hkeys]
    exact hnd
  have hup_mem : ({ s with quantity := s.quantity + d } : StockRow) ∈
      db'.stocks :=
    List.mem_of_find?_eq_some hlock
  refine ⟨⟨?_, ?_⟩, hnd'⟩
  · intro x hx
    by_cases hkey : x.productId = p ∧ x.warehouseId = w
    · have hxeq : x = { s with quantity := s.quantity + d } := by
        apply List.inj_on_of_nodup_map hnd' hx hup_mem
        simp only [hkey.1, hkey.2, hsf.1, hsf.2]
    
      rw [hxeq, hmov, signedSumWith_append]
      rw [if_pos (by simp [hmp, hmw, hsf.1, hsf.2])]
      have h1 := hrec.1 s hsf.2.2
      simp only [hmd]
      simp only [h1]
    · have hx' : x ∈ db.stocks := by
        rcases hmem x hx with h | h
        · exact h
        · exfalso
          apply hkey
          rw [h]
          exact ⟨by simp [hsf.1], by simp [hsf.2.1]⟩
      rw [hmov, signedSumWith_append]
      rw [if_neg (by
        simp only [hmp, hmw, Bool.and_eq_true, beq_iff_eq]
        intro hc
        exact hkey ⟨hc.1.symm, hc.2.symm⟩)]
      rw [add_zero]
      exact hrec.1 x hx'
  · intro m' hm'
    rw [hmov] at hm'
    rcases List.mem_append.mp hm' with hold | hnew
    · by_cases hpair : m'.productId = p ∧ m'.warehouseId = w
      · left
        rw [hpair.1, hpair.2, hlock]
        rfl
      · rcases hrec.2 m' hold with hrow | hzero
        · left
          rw [hother m'.productId m'.warehouseId hpair]
          exact hrow
        · right
          rw [hmov, signedSumWith_append]
          rw [if_neg (by
            simp only [hmp, hmw, Bool.and_eq_true, beq_iff_eq]
            intro hc
            exact hpair ⟨hc.1.symm, hc.2.symm⟩)]
          rw [add_zero]
          exact hzero
    · left
      have hm'm : m' = m := by simpa using hnew
      rw [hm'm, hmp, hmw, hlock]
      rfl

theorem reconciled_create_step {db db' : DB} {p w : String}
    {m : StockMovementRow} {r : StockRow}
    (hnd : stocksKeysNodup db) (hrec : reconciled db)
    (hs : lockStockForUpdate db p w = none)
    (hmp : m.productId = p) (hmw : m.warehouseId = w)
    (hrp : r.productId = p) (hrw : r.warehouseId = w)
    (hrq : r.quantity = movementSignedWith 0 m)
    (hmov : db'.movements = db.movements ++ [m])
    (hstocks : db'.stocks = db.stocks ++ [r]) :
    reconciled db' ∧ stocksKeysNodup db' := by
  have hnone : ∀ x ∈ db.stocks, stockKey p w x = false := by
    have := List.find?_eq_none.mp
      (show db.stocks.find? (stockKey p w) = none from hs)
    intro x hx
    simpa using this x hx
  have hzero : signedSumWith 0 db.movements p w = 0 := by
    by_cases h0 : signedSumWith 0 db.movements p w = 0
    · exact h0
    · exfalso
      obtain ⟨m'', hm'', hk⟩ := signedSumWith_ne_zero_mem h0
      simp only [Bool.and_eq_true, beq_iff_eq] at hk
      rcases hrec.2 m'' hm'' with hrow | hz
      · rw [hk.1, hk.2] at hrow
        rw [show lockStockForUpdate db p w = none from hs] at hrow
        exact absurd hrow (by simp)
      · rw [hk.1, hk.2] at hz
        exact h0 hz
  have hkeyr : stockKey p w r = true := by
    simp [stockKey, hrp, hrw]
  have hlock' : lockStockForUpdate db' p w = some r := by
    show db'.stocks.find? (stockKey p w) = some r
    rw [hstocks, List.find?_append,
      show db.stocks.find? (stockKey p w) = none from hs]
    simp [List.find?, hkeyr]
  have hother : ∀ p' w', ¬(p' = p ∧ w' = w) →
      lockStockForUpdate db' p' w' = lockStockForUpdate db p' w' := by
    intro p' w' hne
    show db'.stocks.find? (stockKey p' w') = db.stocks.find? (stockKey p' w')
    rw [hstocks, List.find?_append]
    have hkr : stockKey p' w' r = false := by
      simp only [stockKey, Bool.and_eq_false_iff, beq_eq_false_iff_ne,
        ne_eq]
      by_cases hp' : r.productId = p'
      · right
        intro hw'
        exact hne ⟨by rw [← hp', hrp], by rw [← hw', hrw]⟩
      · left
        exact hp'
    simp [List.find?, hkr]
  have hnd' : stocksKeysNodup db' := by
    rw [stocksKeysNodup, hstocks, List.map_append]
    refine List.Nodup.append hnd (by simp) ?_
    intro a ha hb
    simp only [List.map_cons, List.map_nil, List.mem_singleton] at hb
    obtain ⟨x, hx, hxa⟩ := List.mem_map.mp ha
    have := hnone x hx
    rw [hb] at hxa
    simp only [stockKey, Bool.and_eq_false_iff, beq_eq_false_iff_ne,
      ne_eq] at this
    rcases this with h | h
    · exact h ((congrArg Prod.fst hxa).trans hrp)
    · exact h ((congrArg Prod.snd hxa).trans hrw)
  refine ⟨⟨?_, ?_⟩, hnd'⟩
  · intro x hx
    rw [hstocks] at hx
    rcases List.mem_append.mp hx with hxl | hxr
    · have hkx := hnone x hxl
      rw [hmov, signedSumWith_append]
      rw [if_neg (by
        simp only [hmp, hmw, Bool.and_eq_true, beq_iff_eq]
        simp only [stockKey, Bool.and_eq_false_iff, beq_eq_false_iff_ne,
          ne_eq] at hkx
        intro hc
        rcases hkx with h | h
        · exact h hc.1.symm
        · exact h hc.2.symm)]
      rw [add_zero]
      exact hrec.1 x hxl
    · have hxr' : x = r := by simpa using hxr
      rw [hxr', hrp, hrw, hmov, signedSumWith_append]
      rw [if_pos (by simp [hmp, hmw])]
      rw [hzero, zero_add, hrq]
  · intro m' hm'
    rw [hmov] at hm'
    rcases List.mem_append.mp hm' with hold | hnew
    · by_cases hpair : m'.productId = p ∧ m'.warehouseId = w
      · left
        rw [hpair.1, hpair.2, hlock']
        rfl
      · rcases hrec.2 m' hold with hrow | hz
        · left
          rw [hother m'.productId m'.warehouseId hpair]
          exact hrow
        · right
          rw [hmov, signedSumWith_append]
          rw [if_neg (by
            simp only [hmp, hmw, Bool.and_eq_true, beq_iff_eq]
            intro hc
            exact hpair ⟨hc.1.symm, hc.2.symm⟩)]
          rw [add_zero]
          exact hz
    · left
      have hm'm : m' = m := by simpa using hnew
      rw [hm'm, hmp, hmw, hlock']
      rfl

theorem reconciled_increaseStock {db : DB} {par : StockMutationParams}
    {db' : DB} {r : StockMutationResult}
    (hnd : stocksKeysNodup db) (hrec : reconciled db)
    (h : increaseStock db par = .ok (db', r)) :
    reconciled db' ∧ stocksKeysNodup db' := by
  obtain ⟨prod, wh, hp, hpo, hw, hwo, hq⟩ := increaseStock_ok_inv h
  cases hs : lockStockForUpdate db par.productId par.warehouseId with
  | some s =>
    obtain ⟨db'', heq, -, -, -, -, -, -, hmov, -, hlock, hother, hmem,
        hkeys⟩ := increaseStock_ok_update hp hpo hw hwo hs hq
    rw [h] at heq
    obtain rfl : db' = db'' := by
      injection heq with heq'
      exact congrArg Prod.fst heq'
    exact reconciled_update_step hnd hrec hs rfl rfl rfl hmov hlock hother
      hmem hkeys
  | none =>
    obtain ⟨db'', heq, -, -, -, -, -, -, hmov, -, hstocks⟩ :=
      increaseStock_ok_create hp hpo hw hwo hs hq
    rw [h] at heq
    obtain rfl : db' = db'' := by
      injection heq with heq'
      exact congrArg Prod.fst heq'
    exact reconciled_create_step hnd hrec hs rfl rfl rfl rfl rfl hmov hstocks

theorem reconciled_decreaseStock {db : DB} {par : StockMutationParams}
    {db' : DB} {r : StockMutationResult}
    (hnd : stocksKeysNodup db) (hrec : reconciled db)
    (h : decreaseStock db par = .ok (db', r)) :
    reconciled db' ∧ stocksKeysNodup db' := by
  obtain ⟨prod, wh, s, hp, hpo, hw, hwo, hs, hq, hge⟩ := decreaseStock_ok_inv h
  obtain ⟨db'', heq, -, -, -, -, -, hmov, -, -, hlock, hother, hmem, hkeys⟩ :=
    decreaseStock_ok hp hpo hw hwo hs hq hge
  rw [h] at heq
  obtain rfl : db' = db'' := by
    injection heq with heq'
    exact congrArg Prod.fst heq'
  have hrw : ({ s with quantity := s.quantity - par.quantity } : StockRow) =
      { s with quantity := s.quantity + -par.quantity } := by
    rw [sub_eq_add_neg]
  rw [hrw] at hlock
  refine reconciled_update_step hnd hrec hs rfl rfl ?_ hmov hlock hother
    ?_ hkeys
  · simp [movementSignedWith, outMovementRow]
  · intro x hx
    rcases hmem x hx with h' | h'
    · exact Or.inl h'
    · exact Or.inr (by rw [h', hrw])

theorem reconciled_reserveOne {db : DB} {org wid : String} {item : StockItem}
    {uid ref : String} {db' : DB}
    (hnd : stocksKeysNodup db) (hrec : reconciled db)
    (h : reserveOne db org wid item uid ref = .ok db') :
    reconciled db' ∧ stocksKeysNodup db' := by
  obtain ⟨prod, s, hp, hpo, hs, hge⟩ := reserveOne_ok_inv h
  obtain ⟨db'', heq, -, -, -, -, -, -, hmov, -, hlock, hother, hmem, hkeys⟩ :=
    @reserveOne_ok _ _ _ _ uid ref _ _ hp hpo hs hge
  rw [h] at heq
  obtain rfl : db' = db'' := by injection heq
  have hrw : ({ s with quantity := s.quantity - item.quantity } : StockRow) =
      { s with quantity := s.quantity + -item.quantity } := by
    rw [sub_eq_add_neg]
  rw [hrw] at hlock
  refine reconciled_update_step hnd hrec hs rfl rfl ?_ hmov hlock hother
    ?_ hkeys
  · simp [movementSignedWith, saleOutMovementRow]
  · intro x hx
    rcases hmem x hx with h' | h'
    · exact Or.inl h'
    · exact Or.inr (by rw [h', hrw])

theorem reconciled_returnOne {db : DB} {org wid : String} {item : StockItem}
    {uid ref : String} {db' : DB}
    (hnd : stocksKeysNodup db) (hrec : reconciled db)
    (h : returnOne db org wid item uid ref = .ok db') :
    reconciled db' ∧ stocksKeysNodup db' := by
  obtain ⟨s, hs⟩ := returnOne_ok_inv h
  obtain ⟨db'', heq, -, -, -, -, -, -, hmov, -, hlock, hother, hmem, hkeys⟩ :=
    @returnOne_ok _ org _ _ uid ref _ hs
  rw [h] at heq
  obtain rfl : db' = db'' := by injection heq
  refine reconciled_update_step hnd hrec hs rfl rfl ?_ hmov hlock hother
    hmem hkeys
  simp [movementSignedWith, saleInMovementRow]

theorem reconciled_reserveItems {org wid uid ref : String} :
    ∀ (items : List StockItem) (db db' : DB),
      stocksKeysNodup db → reconciled db →
      reserveItems db org wid items uid ref = .ok db' →
      reconciled db' ∧ stocksKeysNodup db' := by
  intro items
  induction items with
  | nil =>
    intro db db' hnd hrec h
    simp only [reserveItems] at h
    obtain rfl : db = db' := by injection h
    exact ⟨hrec, hnd⟩
  | cons item rest ih =>
    intro db db' hnd hrec h
    simp only [reserveItems] at h
    cases hr : reserveOne db org wid item uid ref with
    | error e =>
      rw [hr, exc_bind_err] at h
      exact absurd h (by simp)
    | ok db₁ =>
      rw [hr, exc_bind_ok] at h
      obtain ⟨hrec1, hnd1⟩ := reconciled_reserveOne hnd hrec hr
      exact ih db₁ db' hnd1 hrec1 h

theorem reconciled_returnStock {org wid uid ref : String} :
    ∀ (items : List StockItem) (db db' : DB),
      stocksKeysNodup db → reconciled db →
      returnStock db org wid items uid ref = .ok db' →
      reconciled db' ∧ stocksKeysNodup db' := by
  intro items
  induction items with
  | nil =>
    intro db db' hnd hrec h
    simp only [returnStock] at h
    obtain rfl : db = db' := by injection h
    exact ⟨hrec, hnd⟩
  | cons item rest ih =>
    intro db db' hnd hrec h
    simp only [returnStock] at h
    cases hr : returnOne db org wid item uid ref with
    | error e =>
      rw [hr, exc_bind_err] at h
      exact absurd h (by simp)
    | ok db₁ =>
      rw [hr, exc_bind_ok] at h
      obtain ⟨hrec1, hnd1⟩ := reconciled_returnOne hnd hrec hr
      exact ih db₁ db' hnd1 hrec1 h

instance (db : DB) : Decidable (reconciled db) :=
  inferInstanceAs (Decidable (
    (∀ s ∈ db.stocks,
      s.quantity = signedSumWith 0 db.movements s.productId s.warehouseId) ∧
    (∀ m ∈ db.movements,
      (lockStockForUpdate db m.productId m.warehouseId).isSome = true ∨
      signedSumWith 0 db.movements m.productId m.warehouseId = 0)))

instance (db : DB) : Decidable (stocksKeysNodup db) := by
  unfold stocksKeysNodup
  infer_instance

/-- C2 amended: the reconciliation law where IN counts positively, OUT
negatively and ADJUSTMENT rows carry no recoverable sign is preserved by
increaseStock, decreaseStock, reserveStock and returnStock; adjustStock
breaks it (see the counterexample), because the ADJUSTMENT movement
records abs(delta) with no sign. -/
theorem claim_C2 :
    (∀ (db : DB) (par : StockMutationParams) (db' : DB)
       (r : StockMutationResult),
       stocksKeysNodup db → reconciled db →
       increaseStock db par = .ok (db', r) → reconciled db') ∧
    (∀ (db : DB) (par : StockMutationParams) (db' : DB)
       (r : StockMutationResult),
       stocksKeysNodup db → reconciled db →
       decreaseStock db par = .ok (db', r) → reconciled db') ∧
    (∀ (db : DB) (org wid : String) (items : List StockItem)
       (uid ref : String) (db' : DB),
       stocksKeysNodup db → reconciled db →
       reserveStock db org wid items uid ref = .ok db' → reconciled db') ∧
    (∀ (db : DB) (org wid : String) (items : List StockItem)
       (uid ref : String) (db' : DB),
       stocksKeysNodup db → reconciled db →
       returnStock db org wid items uid ref = .ok db' → reconciled db') := by
  refine ⟨?_, ?_, ?_, ?_⟩
  · intro db par db' r hnd hrec h
    exact (reconciled_increaseStock hnd hrec h).1
  · intro db par db' r hnd hrec h
    exact (reconciled_decreaseStock hnd hrec h).1
  · intro db org wid items uid ref db' hnd hrec h
    simp only [reserveStock] at h
    cases hv : validateWarehouseOwnership db wid org with
    | error e =>
      rw [hv, exc_bind_err] at h
      exact absurd h (by simp)
    | ok u =>
      rw [hv, exc_bind_ok] at h
      exact (reconciled_reserveItems items db db' hnd hrec h).1
  · intro db org wid items uid ref db' hnd hrec h
    exact (reconciled_returnStock items db db' hnd hrec h).1

/-- Empty ledger the C2 counterexample starts from. -/
def c2db0 : DB :=
  { products := [{ id := "p1", sku := "SKU1", organizationId := "org1" }],
    warehouses := [{ id := "w1", organizationId := "org1" }],
    stocks := [], movements := [], sales := [], saleItems := [],
    outbox := [], log := [], now := 0 }

/-- Adjustment parameters to an absolute target, for the counterexample. -/
def c2adj (t : Int) : AdjustStockParams :=
  { organizationId := "org1", productId := "p1", warehouseId := "w1",
    targetQuantity := t, userId := "u1", reference := none, note := none }

/-- Ledger after increaseStock 10. -/
def c2db1 : DB := applyTx (increaseStock c2db0 (parD 10)) c2db0

/-- Ledger after the upward adjustment to 16 (ADJUSTMENT records 6). -/
def c2db2 : DB := applyTx (adjustStock c2db1 (c2adj 16)) c2db1

/-- Ledger after the downward adjustment to 4 (ADJUSTMENT records 12). -/
def c2db3 : DB := applyTx (adjustStock c2db2 (c2adj 4)) c2db2

/-- C2 as stated is false: after increaseStock 10, adjustStock to 16 and
adjustStock to 4, every balance-affecting operation completed successfully,
yet the stock quantity 4 differs from the signed movement sum under every
fixed signing of ADJUSTMENT rows (positive 28, negative -8, ignored 10):
the abs(delta) ADJUSTMENT records destroy the sign information the
reconciliation law needs. -/
theorem claim_C2_counterexample :
    (increaseStock c2db0 (parD 10)).isOk = true ∧
    (adjustStock c2db1 (c2adj 16)).isOk = true ∧
    (adjustStock c2db2 (c2adj 4)).isOk = true ∧
    stockQty c2db3 "p1" "w1" = 4 ∧
    signedSumWith 1 c2db3.movements "p1" "w1" = 28 ∧
    signedSumWith (-1) c2db3.movements "p1" "w1" = -8 ∧
    signedSumWith 0 c2db3.movements "p1" "w1" = 10 ∧
    ((4 : Int) ≠ 28 ∧ (4 : Int) ≠ -8 ∧ (4 : Int) ≠ 10) := by
  refine ⟨rfl, rfl, rfl, rfl, rfl, rfl, rfl, by decide⟩

/-- Reconciled witness ledger: one stock row of 5 backed by one IN 5. -/
def wdbr : DB :=
  { products := [{ id := "p1", sku := "SKU1", organizationId := "org1" }],
    warehouses := [{ id := "w1", organizationId := "org1" }],
    stocks := [{ id := "s1", organizationId := "org1", productId := "p1",
                 warehouseId := "w1", quantity := 5, minQuantity := 0 }],
    movements := [{ id := "mov0", organizationId := "org1",
                    productId := "p1", warehouseId := "w1", type := .IN,
                    referenceType := .MANUAL, quantity := 5,
                    reference := none, note := none, createdById := "u1" }],
    sales := [], saleItems := [], outbox := [], log := [], now := 0 }

theorem claim_C2_witness :
    (stocksKeysNodup wdbr ∧ reconciled wdbr) ∧
    reconciled (applyTx (decreaseStock wdbr (parD 3)) wdbr) ∧
    reconciled (applyTx (increaseStock wdbr (parD 2)) wdbr) := by
  refine ⟨⟨by decide, by decide⟩, ?_, ?_⟩
  · exact claim_C2.2.1 wdbr (parD 3)
      (applyTx (decreaseStock wdbr (parD 3)) wdbr)
      ⟨"mov1", 5, 2, "p1", "w1"⟩ (by decide) (by decide) (by rfl)
  · exact claim_C2.1 wdbr (parD 2)
      (applyTx (increaseStock wdbr (parD 2)) wdbr)
      ⟨"mov1", 5, 7, "p1", "w1"⟩ (by decide) (by decide) (by rfl)
